import Mathlib

/-
Verification development for the Beacon Operation Pool Gateway
(beacon-chain/rpc/eth/beacon/handlers_pool.go).

The handlers are shallowly embedded as pure Lean functions.  External
collaborators (wire-to-consensus converters, BLS primitives, the chain info
fetcher, the pools, the notifier and the broadcaster) are supplied as fields
of a `Server` record, mirroring the Go `Server` struct whose collaborator
interfaces are out of scope for this module.  Each handler returns its
HTTP response value together with the ordered list of side effects
(notifier publishes, broadcast attempts, pool insertions) it performed.
-/

namespace BeaconPool

/-- Modelled from the spec: the runtime/version package (not under src/) defines the
canonical ordered fork list Phase0, Altair, Bellatrix, Capella, Deneb, Electra;
comparisons such as "is at least Electra" use that total order. -/
inductive ForkVersion
  | phase0
  | altair
  | bellatrix
  | capella
  | deneb
  | electra
  deriving DecidableEq, Repr

/-- Numeric rank of a fork in the canonical order. -/
def ForkVersion.toNat : ForkVersion → Nat
  | .phase0 => 0
  | .altair => 1
  | .bellatrix => 2
  | .capella => 3
  | .deneb => 4
  | .electra => 5

/-- Boolean total-order comparison: `vge a b` models the Go expression `a >= b`
on fork versions. -/
def vge (a b : ForkVersion) : Bool := Nat.ble b.toNat a.toNat

/-- Modelled from the spec: version.String (not under src/) renders the fork name. -/
def versionString : ForkVersion → String
  | .phase0 => "phase0"
  | .altair => "altair"
  | .bellatrix => "bellatrix"
  | .capella => "capella"
  | .deneb => "deneb"
  | .electra => "electra"

/-- Modelled from the spec: version.FromString (not under src/) resolves a
caller-supplied version string and fails with UnknownVersion when the string
is unrecognized. -/
def FromString (s : String) : Except String ForkVersion :=
  if s = "phase0" then Except.ok ForkVersion.phase0
  else if s = "altair" then Except.ok ForkVersion.altair
  else if s = "bellatrix" then Except.ok ForkVersion.bellatrix
  else if s = "capella" then Except.ok ForkVersion.capella
  else if s = "deneb" then Except.ok ForkVersion.deneb
  else if s = "electra" then Except.ok ForkVersion.electra
  else Except.error ("unknown version string " ++ s)

/-- Modelled from the spec: api.VersionHeader (not under src/). -/
def VersionHeader : String := "Eth-Consensus-Version"

/-- Attestation data: the fields of eth.AttestationData read by this module
(slot and committee index). -/
structure AttData where
  slot : Nat
  committeeIndex : Nat
  deriving DecidableEq, Repr

/-- Consensus attestation, base variant (eth.Attestation): the fields read by
this module. -/
structure Attestation where
  aggregationBits : List Bool
  data : AttData
  signature : List Nat
  deriving DecidableEq, Repr

/-- Consensus attestation, post-Electra variant (eth.AttestationElectra):
carries a committee bitfield from which a single committee index is derived. -/
structure AttestationElectra where
  aggregationBits : List Bool
  data : AttData
  committeeBits : List Bool
  signature : List Nat
  deriving DecidableEq, Repr

/-- Opaque wire-format attestation (structs.Attestation); conversion to the
consensus form is an external collaborator. -/
structure WireAtt where
  tag : Nat
  deriving DecidableEq, Repr

/-- Opaque wire-format post-Electra attestation (structs.AttestationElectra). -/
structure WireAttElectra where
  tag : Nat
  deriving DecidableEq, Repr

/-- Read-only head-state snapshot from the chain collaborator; only its fork
version is read directly by this module, the tag distinguishes snapshots. -/
structure HeadState where
  version : ForkVersion
  tag : Nat
  deriving DecidableEq, Repr

/-- Opaque validator record returned by a head-state lookup. -/
structure Validator where
  tag : Nat
  deriving DecidableEq, Repr

/-- Validator lookup failure: consensus_types.ErrOutOfBounds is distinguished
from other lookup errors (400 versus 500). -/
inductive LookupErr
  | outOfBounds (msg : String)
  | other (msg : String)
  deriving DecidableEq, Repr

/-- Voluntary exit message (eth.VoluntaryExit): the fields read here. -/
structure VoluntaryExit where
  epoch : Nat
  validatorIndex : Nat
  deriving DecidableEq, Repr

/-- Signed voluntary exit (eth.SignedVoluntaryExit). -/
structure SignedVoluntaryExit where
  message : VoluntaryExit
  signature : List Nat
  deriving DecidableEq, Repr

/-- Opaque wire-format signed voluntary exit (structs.SignedVoluntaryExit). -/
structure WireExit where
  tag : Nat
  deriving DecidableEq, Repr

/-- Attester slashing as the eth.AttSlashing interface: a base or Electra
variant; this module reads only the first attestation data slot. -/
inductive AttSlashing
  | base (firstSlot : Nat) (tag : Nat)
  | electra (firstSlot : Nat) (tag : Nat)
  deriving DecidableEq, Repr

/-- Slot of the slashing's first attestation (slashing.FirstAttestation().GetData().Slot). -/
def AttSlashing.firstAttSlot : AttSlashing → Nat
  | .base s _ => s
  | .electra s _ => s

/-- Opaque wire-format attester slashing (structs.AttesterSlashing). -/
structure WireAttSlashing where
  tag : Nat
  deriving DecidableEq, Repr

/-- Opaque wire-format Electra attester slashing (structs.AttesterSlashingElectra). -/
structure WireAttSlashingElectra where
  tag : Nat
  deriving DecidableEq, Repr

/-- Proposer slashing (eth.ProposerSlashing): this module reads the slot of the
first signed header (slashing.Header_1.Header.Slot). -/
structure ProposerSlashing where
  header1Slot : Nat
  tag : Nat
  deriving DecidableEq, Repr

/-- Opaque wire-format proposer slashing (structs.ProposerSlashing). -/
structure WireProposerSlashing where
  tag : Nat
  deriving DecidableEq, Repr

/-- Signed BLS-to-execution change (eth.SignedBLSToExecutionChange); contents
are opaque to this module, which validates through collaborators. -/
structure SignedBLSToExecutionChange where
  tag : Nat
  deriving DecidableEq, Repr

/-- Opaque wire-format signed BLS-to-execution change. -/
structure WireBLS where
  tag : Nat
  deriving DecidableEq, Repr

/-- Entry of the attestations pool as the ethpb.Att interface: the dynamic type
is recovered by the V2 list endpoint with a type assertion. -/
inductive PoolAtt
  | base (a : Attestation)
  | electra (a : AttestationElectra)
  deriving DecidableEq, Repr

/-- Entry of the slashings pool as the eth.AttSlashing interface. -/
inductive PoolSlashing
  | base (tag : Nat)
  | electra (tag : Nat)
  deriving DecidableEq, Repr

/-- The Server record: the collaborators of the Go `Server` struct, embedded as
pure functions.  Fallible collaborators return `Except`; the broadcaster and
pool oracles are deterministic functions of their arguments. -/
structure Server where
  attToConsensus : WireAtt → Except String Attestation
  attElectraToConsensus : WireAttElectra → Except String AttestationElectra
  signatureFromBytes : List Nat → Except String Unit
  headValidatorsIndices : Nat → Except String (List Nat)
  computeSubnet : Nat → Nat → Nat → Nat
  broadcastAttestation : Nat → Attestation → Except String Unit
  broadcastAttestationElectra : Nat → AttestationElectra → Except String Unit
  headState : Except String HeadState
  headStateReadOnly : Except String HeadState
  processSlotsIfPossible : HeadState → Nat → Except String HeadState
  exitToConsensus : WireExit → Except String SignedVoluntaryExit
  validatorAtIndexReadOnly : HeadState → Nat → Except LookupErr Validator
  verifyExitAndSignature : Validator → HeadState → SignedVoluntaryExit → Except String Unit
  broadcastExit : SignedVoluntaryExit → Except String Unit
  attSlashingToConsensus : WireAttSlashing → Except String AttSlashing
  attSlashingElectraToConsensus : WireAttSlashingElectra → Except String AttSlashing
  verifyAttesterSlashing : HeadState → AttSlashing → Except String Unit
  insertAttesterSlashing : HeadState → AttSlashing → Except String Unit
  proposerSlashingToConsensus : WireProposerSlashing → Except String ProposerSlashing
  verifyProposerSlashing : HeadState → ProposerSlashing → Except String Unit
  insertProposerSlashing : HeadState → ProposerSlashing → Except String Unit
  disableBroadcastSlashings : Bool
  broadcastAttSlashing : AttSlashing → Except String Unit
  broadcastProposerSlashing : ProposerSlashing → Except String Unit
  blsChangeToConsensus : WireBLS → Except String SignedBLSToExecutionChange
  validateBLSToExecutionChange : HeadState → SignedBLSToExecutionChange → Except String Unit
  verifyBLSChangeSignature : HeadState → SignedBLSToExecutionChange → Except String Unit
  broadcastBLSChange : SignedBLSToExecutionChange → Except String Unit
  aggregatedAttestations : List PoolAtt
  unaggregatedAttestations : Except String (List PoolAtt)
  pendingAttesterSlashings : HeadState → List PoolSlashing

/-- Modelled from the spec: corehelpers.IsAggregated (not under src/) — an
attestation is aggregated iff more than one aggregation bit is set. -/
def IsAggregated (bits : List Bool) : Bool := 1 < bits.count true

/-- Modelled from the spec: slots.ToEpoch (not under src/) — an epoch is 32 slots. -/
def ToEpoch (slot : Nat) : Nat := slot / 32

/-- Modelled from the spec: att.GetCommitteeIndex for the post-Electra variant
(not under src/) — derives the single committee index from the committee
bitfield and fails when the bitfield does not designate exactly one committee. -/
def GetCommitteeIndex (bits : List Bool) : Except String Nat :=
  if bits.count true = 1 then Except.ok (bits.indexOf true)
  else Except.error ("exactly one committee index must be set")

/-- HTTP response written by a handler. -/
inductive Resp
  | okEmpty
  | err (status : Nat) (message : String)
  | indexedFailures (status : Nat) (message : String) (failures : List (Nat × String))
  deriving DecidableEq, Repr

/-- Decoded request body: `eof` is an empty body (io.EOF from the JSON decoder),
`malformed` is any other decode error, `data` is a successful decode. -/
inductive Body (α : Type)
  | eof
  | malformed (msg : String)
  | data (v : α)

/-- Side effects of the base attestation Phase B loop, in execution order. -/
inductive AttEffect
  | notifyUnaggregated (a : Attestation)
  | broadcastAttempt (subnet : Nat) (a : Attestation)
  | saveAggregated (a : Attestation)
  | saveUnaggregated (a : Attestation)
  deriving DecidableEq, Repr

/-- Side effects of the Electra attestation Phase B loop, in execution order. -/
inductive AttEffectE
  | notifyUnaggregated (a : AttestationElectra)
  | broadcastAttempt (subnet : Nat) (a : AttestationElectra)
  | saveAggregated (a : AttestationElectra)
  | saveUnaggregated (a : AttestationElectra)
  deriving DecidableEq, Repr

/-- Notifier publish performed for an unaggregated attestation before broadcast
(the feed send guarded by !corehelpers.IsAggregated). -/
def attNotifyFx (att : Attestation) : List AttEffect :=
  if IsAggregated att.aggregationBits then [] else [AttEffect.notifyUnaggregated att]

/-- Per-item Phase B step of handleAttestations: notifier publish for an
unaggregated attestation, head validator lookup, subnet computation, broadcast,
and pool insertion; a failed lookup or broadcast records `strconv.Itoa i` in
failedBroadcasts and skips the rest of the item (`continue`). -/
def attStep (s : Server) (i : Nat) (att : Attestation) : List AttEffect × List String :=
  let nfx := attNotifyFx att
  match s.headValidatorsIndices (ToEpoch att.data.slot) with
  | Except.error _ => (nfx, [Nat.repr i])
  | Except.ok vals =>
    let subnet := s.computeSubnet vals.length att.data.committeeIndex att.data.slot
    match s.broadcastAttestation subnet att with
    | Except.error _ => (nfx ++ [AttEffect.broadcastAttempt subnet att], [Nat.repr i])
    | Except.ok _ =>
      (nfx ++ [AttEffect.broadcastAttempt subnet att,
        if IsAggregated att.aggregationBits then AttEffect.saveAggregated att
        else AttEffect.saveUnaggregated att], [])

/-- Phase A of handleAttestations: convert each wire attestation and check that
its signature parses; failures are collected with the item's index in the
submitted batch and the item is skipped. -/
def attPhaseA (s : Server) : Nat → List WireAtt → List (Nat × String) × List Attestation
  | _, [] => ([], [])
  | i, w :: rest =>
    let r := attPhaseA s (i + 1) rest
    match s.attToConsensus w with
    | Except.error e =>
      ((i, "Could not convert request attestation to consensus attestation: " ++ e) :: r.1, r.2)
    | Except.ok att =>
      match s.signatureFromBytes att.signature with
      | Except.error e => ((i, "Incorrect attestation signature: " ++ e) :: r.1, r.2)
      | Except.ok _ => (r.1, att :: r.2)

/-- Phase A survivors together with their index in the originally submitted
batch (specification-side view used to relate reported indices to positions). -/
def attPhaseAIdx (s : Server) : Nat → List WireAtt → List (Nat × Attestation)
  | _, [] => []
  | i, w :: rest =>
    let r := attPhaseAIdx s (i + 1) rest
    match s.attToConsensus w with
    | Except.error _ => r
    | Except.ok att =>
      match s.signatureFromBytes att.signature with
      | Except.error _ => r
      | Except.ok _ => (i, att) :: r

/-- Whether the Phase B step for this attestation records a failed broadcast
(head validator lookup failure or broadcaster error). -/
def attBroadcastFails (s : Server) (att : Attestation) : Bool :=
  match s.headValidatorsIndices (ToEpoch att.data.slot) with
  | Except.error _ => true
  | Except.ok vals =>
    match s.broadcastAttestation (s.computeSubnet vals.length att.data.committeeIndex att.data.slot) att with
    | Except.error _ => true
    | Except.ok _ => false

/-- Specification-side view of failedBroadcasts: the positions, counted from
`i`, of the items whose Phase B step fails, rendered with strconv.Itoa. -/
def failIdx (s : Server) : Nat → List Attestation → List String
  | _, [] => []
  | i, a :: rest =>
    (if attBroadcastFails s a then [Nat.repr i] else []) ++ failIdx s (i + 1) rest

/-- Phase B of handleAttestations over the Phase A survivors, numbering the
items from `i` (the loop variable of `for i, att := range validAttestations`). -/
def attPhaseB (s : Server) : Nat → List Attestation → List AttEffect × List String
  | _, [] => ([], [])
  | i, att :: rest =>
    let r1 := attStep s i att
    let r2 := attPhaseB s (i + 1) rest
    (r1.1 ++ r2.1, r1.2 ++ r2.2)

/-- Result of handleAttestations: the collected Phase A failures, the collected
failed broadcast indices, the side effects that were performed, and the fatal
error (a non-nil Go `err` return) if any. -/
structure HandleOutcome where
  attFailures : List (Nat × String)
  failedBroadcasts : List String
  effects : List AttEffect
  fatal : Option String
  deriving DecidableEq, Repr

/-- handleAttestations: unmarshal the raw message (a `none` input models a JSON
unmarshal failure), reject an empty batch, then run Phase A and Phase B. -/
def handleAttestations (s : Server) (data : Option (List WireAtt)) : HandleOutcome :=
  match data with
  | none => ⟨[], [], [], some ("failed to unmarshal attestation")⟩
  | some src =>
    if src.isEmpty then ⟨[], [], [], some ("no data submitted")⟩
    else
      let pa := attPhaseA s 0 src
      let pb := attPhaseB s 0 pa.2
      ⟨pa.1, pb.2, pb.1, none⟩

/-- Notifier publish for an unaggregated Electra attestation. -/
def attNotifyFxE (att : AttestationElectra) : List AttEffectE :=
  if IsAggregated att.aggregationBits then [] else [AttEffectE.notifyUnaggregated att]

/-- Per-item Phase B step of handleAttestationsElectra.  The third component is
the fatal error: a committee-index derivation failure aborts the whole batch
(`return nil, nil, errors.Wrap(...)`), unlike the per-item lookup and broadcast
failures which record the index and continue. -/
def attStepElectra (s : Server) (i : Nat) (att : AttestationElectra) :
    List AttEffectE × List String × Option String :=
  let nfx := attNotifyFxE att
  match s.headValidatorsIndices (ToEpoch att.data.slot) with
  | Except.error _ => (nfx, [Nat.repr i], none)
  | Except.ok vals =>
    match GetCommitteeIndex att.committeeBits with
    | Except.error e => (nfx, [], some e)
    | Except.ok committeeIndex =>
      let subnet := s.computeSubnet vals.length committeeIndex att.data.slot
      match s.broadcastAttestationElectra subnet att with
      | Except.error _ => (nfx ++ [AttEffectE.broadcastAttempt subnet att], [Nat.repr i], none)
      | Except.ok _ =>
        (nfx ++ [AttEffectE.broadcastAttempt subnet att,
          if IsAggregated att.aggregationBits then AttEffectE.saveAggregated att
          else AttEffectE.saveUnaggregated att], [], none)

/-- Phase A of handleAttestationsElectra. -/
def attPhaseAElectra (s : Server) :
    Nat → List WireAttElectra → List (Nat × String) × List AttestationElectra
  | _, [] => ([], [])
  | i, w :: rest =>
    let r := attPhaseAElectra s (i + 1) rest
    match s.attElectraToConsensus w with
    | Except.error e =>
      ((i, "Could not convert request attestation to consensus attestation: " ++ e) :: r.1, r.2)
    | Except.ok att =>
      match s.signatureFromBytes att.signature with
      | Except.error e => ((i, "Incorrect attestation signature: " ++ e) :: r.1, r.2)
      | Except.ok _ => (r.1, att :: r.2)

/-- Phase B of handleAttestationsElectra; a fatal step stops the loop, keeping
the effects performed so far. -/
def attPhaseBElectra (s : Server) :
    Nat → List AttestationElectra → List AttEffectE × List String × Option String
  | _, [] => ([], [], none)
  | i, att :: rest =>
    let r1 := attStepElectra s i att
    match r1.2.2 with
    | some e => (r1.1, r1.2.1, some e)
    | none =>
      let r2 := attPhaseBElectra s (i + 1) rest
      (r1.1 ++ r2.1, r1.2.1 ++ r2.2.1, r2.2.2)

/-- Result of handleAttestationsElectra. -/
structure HandleOutcomeE where
  attFailures : List (Nat × String)
  failedBroadcasts : List String
  effects : List AttEffectE
  fatal : Option String
  deriving DecidableEq, Repr

/-- handleAttestationsElectra: like handleAttestations but on the Electra
variant; a committee-index derivation failure returns a fatal error and
discards the collected failure lists (`return nil, nil, err`). -/
def handleAttestationsElectra (s : Server) (data : Option (List WireAttElectra)) :
    HandleOutcomeE :=
  match data with
  | none => ⟨[], [], [], some ("failed to unmarshal attestation")⟩
  | some src =>
    if src.isEmpty then ⟨[], [], [], some ("no data submitted")⟩
    else
      let pa := attPhaseAElectra s 0 src
      let pb := attPhaseBElectra s 0 pa.2
      match pb.2.2 with
      | some e => ⟨[], [], pb.1, some ("failed to retrieve attestation committee index: " ++ e)⟩
      | none => ⟨pa.1, pb.2.1, pb.1, none⟩

/-- Whether the Electra Phase B step for this attestation records a failed
broadcast (head validator lookup failure or broadcaster error); a
committee-index derivation failure is the fatal path, not a failed broadcast. -/
def attBroadcastFailsE (s : Server) (att : AttestationElectra) : Bool :=
  match s.headValidatorsIndices (ToEpoch att.data.slot) with
  | Except.error _ => true
  | Except.ok vals =>
    match GetCommitteeIndex att.committeeBits with
    | Except.error _ => false
    | Except.ok ci =>
      match s.broadcastAttestationElectra (s.computeSubnet vals.length ci att.data.slot) att with
      | Except.error _ => true
      | Except.ok _ => false

/-- Specification-side view of the Electra failedBroadcasts: the positions,
counted from `i`, of the items whose Phase B step fails, rendered with
strconv.Itoa. -/
def failIdxE (s : Server) : Nat → List AttestationElectra → List String
  | _, [] => []
  | i, a :: rest =>
    (if attBroadcastFailsE s a then [Nat.repr i] else []) ++ failIdxE s (i + 1) rest

/-- Electra Phase A survivors together with their index in the originally
submitted batch. -/
def attPhaseAIdxE (s : Server) : Nat → List WireAttElectra → List (Nat × AttestationElectra)
  | _, [] => []
  | i, w :: rest =>
    let r := attPhaseAIdxE s (i + 1) rest
    match s.attElectraToConsensus w with
    | Except.error _ => r
    | Except.ok att =>
      match s.signatureFromBytes att.signature with
      | Except.error _ => r
      | Except.ok _ => (i, att) :: r

/-- Response policy shared by SubmitAttestations after a non-fatal handle: a 500
listing failed broadcast indices takes priority; otherwise a 400 with the
Phase A failure list; otherwise 200 with an empty body. -/
def attSubmitResp (r : HandleOutcome) : Resp :=
  if 0 < r.failedBroadcasts.length then
    Resp.err 500 ("Attestations at index " ++ String.intercalate ", " r.failedBroadcasts ++
      " could not be broadcasted")
  else if 0 < r.attFailures.length then
    Resp.indexedFailures 400 ("One or more attestations failed validation") r.attFailures
  else Resp.okEmpty

/-- Same response policy for the Electra handle outcome. -/
def attSubmitRespE (r : HandleOutcomeE) : Resp :=
  if 0 < r.failedBroadcasts.length then
    Resp.err 500 ("Attestations at index " ++ String.intercalate ", " r.failedBroadcasts ++
      " could not be broadcasted")
  else if 0 < r.attFailures.length then
    Resp.indexedFailures 400 ("One or more attestations failed validation") r.attFailures
  else Resp.okEmpty

/-- SubmitAttestations (V1): decode the body into a raw message, run
handleAttestations, surface a fatal error as a 400 with the error text, then
apply the response policy. -/
def SubmitAttestations (s : Server) (body : Body (Option (List WireAtt))) :
    Resp × List AttEffect :=
  match body with
  | Body.eof => (Resp.err 400 ("No data submitted"), [])
  | Body.malformed m => (Resp.err 400 ("Could not decode request body: " ++ m), [])
  | Body.data d =>
    let r := handleAttestations s d
    match r.fatal with
    | some e => (Resp.err 400 e, r.effects)
    | none => (attSubmitResp r, r.effects)

/-- Raw attestation batch message as decoded by the V2 endpoint: the JSON can
be unmarshaled as either variant depending on the version header; `none`
models an unmarshal failure for that target type. -/
structure RawAtts where
  asBase : Option (List WireAtt)
  asElectra : Option (List WireAttElectra)

/-- SubmitAttestationsV2: requires the Eth-Consensus-Version header (400 if
absent, with an immediate return), resolves the version, decodes the body and
dispatches on version >= Electra; a fatal handle error is wrapped as
"Failed to handle attestations"; then the shared response policy. -/
def SubmitAttestationsV2 (s : Server) (versionHeader : String) (body : Body RawAtts) :
    Resp × List AttEffect × List AttEffectE :=
  if versionHeader = "" then
    (Resp.err 400 (VersionHeader ++ " header is required"), [], [])
  else
    match FromString versionHeader with
    | Except.error e => (Resp.err 400 ("Invalid version: " ++ e), [], [])
    | Except.ok v =>
      match body with
      | Body.eof => (Resp.err 400 ("No data submitted"), [], [])
      | Body.malformed m => (Resp.err 400 ("Could not decode request body: " ++ m), [], [])
      | Body.data raw =>
        if vge v ForkVersion.electra then
          let r := handleAttestationsElectra s raw.asElectra
          match r.fatal with
          | some e => (Resp.err 400 ("Failed to handle attestations: " ++ e), [], r.effects)
          | none => (attSubmitRespE r, [], r.effects)
        else
          let r := handleAttestations s raw.asBase
          match r.fatal with
          | some e => (Resp.err 400 ("Failed to handle attestations: " ++ e), r.effects, [])
          | none => (attSubmitResp r, r.effects, [])

/-- Side effects of the slashing submission helpers, in execution order: the
pool insert comes first, then the notifier publish, then the broadcast. -/
inductive SlashEffect
  | insertPool
  | notify
  | broadcastAttempt
  deriving DecidableEq, Repr

/-- submitAttesterSlashing: fetch the head state, advance it to the first
attestation's slot, verify, insert into the pool, publish the notifier event,
then broadcast unless DisableBroadcastSlashings; `none` is the implicit 200. -/
def submitAttesterSlashing (s : Server) (slashing : AttSlashing) :
    Option Resp × List SlashEffect :=
  match s.headState with
  | Except.error e => (some (Resp.err 500 ("Could not get head state: " ++ e)), [])
  | Except.ok st =>
    match s.processSlotsIfPossible st slashing.firstAttSlot with
    | Except.error e => (some (Resp.err 500 ("Could not process slots: " ++ e)), [])
    | Except.ok st2 =>
      match s.verifyAttesterSlashing st2 slashing with
      | Except.error e => (some (Resp.err 400 ("Invalid attester slashing: " ++ e)), [])
      | Except.ok _ =>
        match s.insertAttesterSlashing st2 slashing with
        | Except.error e =>
          (some (Resp.err 500 ("Could not insert attester slashing into pool: " ++ e)),
           [SlashEffect.insertPool])
        | Except.ok _ =>
          if s.disableBroadcastSlashings then
            (none, [SlashEffect.insertPool, SlashEffect.notify])
          else
            match s.broadcastAttSlashing slashing with
            | Except.error e =>
              (some (Resp.err 500 ("Could not broadcast slashing object: " ++ e)),
               [SlashEffect.insertPool, SlashEffect.notify, SlashEffect.broadcastAttempt])
            | Except.ok _ =>
              (none, [SlashEffect.insertPool, SlashEffect.notify, SlashEffect.broadcastAttempt])

/-- Raw attester slashing body as decoded by the V2 endpoint: the JSON is
unmarshaled into the variant selected by the version header; an `error` value
models a decode failure for that target type. -/
structure RawSlashing where
  asBase : Except String WireAttSlashing
  asElectra : Except String WireAttSlashingElectra

/-- SubmitAttesterSlashingsV2, embedded with the source's missing `return`
after the missing-header error: the handler writes the 400 but continues, so
its output is the ordered list of response writes.  With an absent header the
version parse of the empty string then fails and a second 400 is written. -/
def SubmitAttesterSlashingsV2 (s : Server) (versionHeader : String) (body : Body RawSlashing) :
    List Resp × List SlashEffect :=
  let missingWrites : List Resp :=
    if versionHeader = "" then [Resp.err 400 (VersionHeader ++ " header is required")] else []
  match FromString versionHeader with
  | Except.error e => (missingWrites ++ [Resp.err 400 ("Invalid version: " ++ e)], [])
  | Except.ok v =>
    match body with
    | Body.eof => (missingWrites ++ [Resp.err 400 ("No data submitted")], [])
    | Body.malformed m =>
      (missingWrites ++ [Resp.err 400 ("Could not decode request body: " ++ m)], [])
    | Body.data raw =>
      if vge v ForkVersion.electra then
        match raw.asElectra with
        | Except.error m =>
          (missingWrites ++ [Resp.err 400 ("Could not decode request body: " ++ m)], [])
        | Except.ok w =>
          match s.attSlashingElectraToConsensus w with
          | Except.error e =>
            (missingWrites ++
             [Resp.err 400 ("Could not convert request slashing to consensus slashing: " ++ e)], [])
          | Except.ok slashing =>
            let r := submitAttesterSlashing s slashing
            (missingWrites ++ r.1.toList, r.2)
      else
        match raw.asBase with
        | Except.error m =>
          (missingWrites ++ [Resp.err 400 ("Could not decode request body: " ++ m)], [])
        | Except.ok w =>
          match s.attSlashingToConsensus w with
          | Except.error e =>
            (missingWrites ++
             [Resp.err 400 ("Could not convert request slashing to consensus slashing: " ++ e)], [])
          | Except.ok slashing =>
            let r := submitAttesterSlashing s slashing
            (missingWrites ++ r.1.toList, r.2)

/-- Side effects of the BLS-to-execution-change submission loop, in execution
order: the notifier publish precedes the pool insert for each accepted item. -/
inductive BLSEffect
  | notifyChange (c : SignedBLSToExecutionChange)
  | insertPool (c : SignedBLSToExecutionChange)
  deriving DecidableEq, Repr

/-- Per-item loop of SubmitBLSToExecutionChanges: decode, validate against the
submission-time head state, verify the signature; an accepted item is published
on the notifier feed and inserted into the pool, and is appended to the
broadcast batch only when the submission-time head fork is at least Capella. -/
def blsProcess (s : Server) (st : HeadState) :
    Nat → List WireBLS →
    List (Nat × String) × List BLSEffect × List SignedBLSToExecutionChange
  | _, [] => ([], [], [])
  | i, w :: rest =>
    let r := blsProcess s st (i + 1) rest
    match s.blsChangeToConsensus w with
    | Except.error e =>
      ((i, "Unable to decode SignedBLSToExecutionChange: " ++ e) :: r.1, r.2.1, r.2.2)
    | Except.ok sbls =>
      match s.validateBLSToExecutionChange st sbls with
      | Except.error e =>
        ((i, "Could not validate SignedBLSToExecutionChange: " ++ e) :: r.1, r.2.1, r.2.2)
      | Except.ok _ =>
        match s.verifyBLSChangeSignature st sbls with
        | Except.error e => ((i, "Could not validate signature: " ++ e) :: r.1, r.2.1, r.2.2)
        | Except.ok _ =>
          (r.1, BLSEffect.notifyChange sbls :: BLSEffect.insertPool sbls :: r.2.1,
           if vge st.version ForkVersion.capella then sbls :: r.2.2 else r.2.2)

/-- Specification-side view of an accepted item: the composition of the three
per-item checks of the BLS submission loop. -/
def blsAccept (s : Server) (st : HeadState) (w : WireBLS) :
    Option SignedBLSToExecutionChange :=
  match s.blsChangeToConsensus w with
  | Except.error _ => none
  | Except.ok sbls =>
    match s.validateBLSToExecutionChange st sbls with
    | Except.error _ => none
    | Except.ok _ =>
      match s.verifyBLSChangeSignature st sbls with
      | Except.error _ => none
      | Except.ok _ => some sbls

/-- Specification-side view of all accepted items, in submission order. -/
def blsAcceptedList (s : Server) (st : HeadState) (req : List WireBLS) :
    List SignedBLSToExecutionChange :=
  req.filterMap (blsAccept s st)

/-- A cancellation token: whether the context is done at a given tick of the
deferred loop.  Tick 0 is the immediate first batch, tick t is the t-th firing
of the 500 ms ticker. -/
def Ctx : Type := Nat → Bool

/-- The background task spawned by `go s.broadcastBLSChanges(ctx, toBroadcast)`:
the context object handed to the goroutine and the owned batch slice.  The
batch holds pointers, hence the `Option` elements mirroring the nil guard. -/
structure SpawnedBLSTask where
  ctx : Ctx
  batch : List (Option SignedBLSToExecutionChange)

/-- Result of SubmitBLSToExecutionChanges: the response, the performed effects,
and the background task, `none` when the handler returned before the spawn. -/
structure BLSSubmitResult where
  response : Resp
  effects : List BLSEffect
  spawned : Option SpawnedBLSTask

/-- SubmitBLSToExecutionChanges: fetch the read-only head state (before the
body decode, as in the source), decode, run the per-item loop, spawn the
deferred broadcast task with the request-scoped context, and answer 200 or a
400 with the per-index failures. -/
def SubmitBLSToExecutionChanges (s : Server) (reqCtx : Ctx) (body : Body (List WireBLS)) :
    BLSSubmitResult :=
  match s.headStateReadOnly with
  | Except.error e => ⟨Resp.err 500 ("Could not get head state: " ++ e), [], none⟩
  | Except.ok st =>
    match body with
    | Body.eof => ⟨Resp.err 400 ("No data submitted"), [], none⟩
    | Body.malformed m => ⟨Resp.err 400 ("Could not decode request body: " ++ m), [], none⟩
    | Body.data req =>
      if req.isEmpty then ⟨Resp.err 400 ("No data submitted"), [], none⟩
      else
        let r := blsProcess s st 0 req
        let task : SpawnedBLSTask := ⟨reqCtx, r.2.2.map some⟩
        if r.1.isEmpty then ⟨Resp.okEmpty, r.2.1, some task⟩
        else
          ⟨Resp.indexedFailures 400 ("One or more BLSToExecutionChange failed validation") r.1,
           r.2.1, some task⟩

/-- BROADCAST_RATE_LIMIT of the deferred loop. -/
def broadcastBLSChangesRateLimit : Nat := 128

/-- broadcastBLSBatch: one round of the deferred loop.  The limit is
min(len, 128); the round's head-state fetch result is passed explicitly (a
failure logs and returns with the batch untouched); each non-nil item of the
first `limit` entries is re-validated against the round's head state and, only
on success, handed to the broadcaster (a broadcast error is logged only); the
first `limit` entries are then removed from the batch.  The first component is
the list of items handed to the broadcaster. -/
def broadcastBLSBatch (s : Server) (stRes : Except String HeadState)
    (batch : List (Option SignedBLSToExecutionChange)) :
    List SignedBLSToExecutionChange × List (Option SignedBLSToExecutionChange) :=
  let limit := if batch.length < broadcastBLSChangesRateLimit then batch.length
    else broadcastBLSChangesRateLimit
  match stRes with
  | Except.error _ => ([], batch)
  | Except.ok st =>
    let sent := (batch.take limit).filterMap (fun o =>
      match o with
      | none => none
      | some ch =>
        match s.validateBLSToExecutionChange st ch with
        | Except.error _ => none
        | Except.ok _ => some ch)
    (sent, batch.drop limit)

/-- Ticker-driven tail of broadcastBLSChanges: at each tick the select first
observes a done context and returns, otherwise runs one batch round and stops
when the batch is empty.  `stAt t` is the head-state fetch result at tick t.
The fuel bounds the number of ticks modelled; the loop itself runs until the
batch is empty or the context is canceled. -/
def broadcastBLSLoop (s : Server) (ctx : Ctx) (stAt : Nat → Except String HeadState) :
    Nat → Nat → List (Option SignedBLSToExecutionChange) →
    List (List SignedBLSToExecutionChange) × List (Option SignedBLSToExecutionChange)
  | 0, _, batch => ([], batch)
  | fuel + 1, t, batch =>
    if ctx t then ([], batch)
    else
      let r := broadcastBLSBatch s (stAt t) batch
      if r.2.isEmpty then ([r.1], r.2)
      else
        let rest := broadcastBLSLoop s ctx stAt fuel (t + 1) r.2
        (r.1 :: rest.1, rest.2)

/-- broadcastBLSChanges: run one immediate round, return if the batch is
drained, otherwise loop on the 500 ms ticker.  Returns the per-round broadcast
lists and the batch remaining when the task stopped. -/
def broadcastBLSChanges (s : Server) (ctx : Ctx) (stAt : Nat → Except String HeadState)
    (fuel : Nat) (changes : List (Option SignedBLSToExecutionChange)) :
    List (List SignedBLSToExecutionChange) × List (Option SignedBLSToExecutionChange) :=
  let r := broadcastBLSBatch s (stAt 0) changes
  if r.2.isEmpty then ([r.1], r.2)
  else
    let rest := broadcastBLSLoop s ctx stAt fuel 1 r.2
    (r.1 :: rest.1, rest.2)

/-- Milliseconds between ticker firings of the deferred loop. -/
def blsTickerMilliseconds : Nat := 500

/-- Query parameter as read by shared.UintFromQuery with required=false:
absent (raw string empty), present but unparsable (the helper writes a 400),
or present with a parsed value. -/
inductive QueryParam
  | absent
  | invalid
  | value (v : Nat)
  deriving DecidableEq, Repr

/-- Successful parse of a query parameter: `none` when absent (matches any),
`some v` when present. -/
def QueryParam.parse : QueryParam → Option (Option Nat)
  | .absent => some none
  | .invalid => none
  | .value v => some (some v)

/-- shouldIncludeAttestation: a present slot or committee-index filter must
match exactly; an absent one matches any. -/
def shouldIncludeAttestation (d : AttData) (slotQ : Option Nat) (ciQ : Option Nat) : Bool :=
  let committeeIndexMatch := match ciQ with
    | none => true
    | some ci => d.committeeIndex = ci
  let slotMatch := match slotQ with
    | none => true
    | some sl => d.slot = sl
  committeeIndexMatch && slotMatch

/-- Electra branch of the ListAttestationsV2 filter loop: every pool entry must
downcast to the Electra variant (a base entry is a 500 for the whole response),
and matching entries are converted and kept. -/
def listFilterElectra (slotQ ciQ : Option Nat) :
    List PoolAtt → Except String (List PoolAtt)
  | [] => Except.ok []
  | PoolAtt.base _ :: _ => Except.error ("Unable to convert attestation of type base")
  | PoolAtt.electra a :: rest =>
    match listFilterElectra slotQ ciQ rest with
    | Except.error m => Except.error m
    | Except.ok l =>
      Except.ok (if shouldIncludeAttestation a.data slotQ ciQ then PoolAtt.electra a :: l else l)

/-- Pre-Electra branch of the ListAttestationsV2 filter loop. -/
def listFilterBase (slotQ ciQ : Option Nat) :
    List PoolAtt → Except String (List PoolAtt)
  | [] => Except.ok []
  | PoolAtt.electra _ :: _ => Except.error ("Unable to convert attestation of type electra")
  | PoolAtt.base a :: rest =>
    match listFilterBase slotQ ciQ rest with
    | Except.error m => Except.error m
    | Except.ok l =>
      Except.ok (if shouldIncludeAttestation a.data slotQ ciQ then PoolAtt.base a :: l else l)

/-- Successful ListAttestationsV2 response: the version field and the filtered
entries. -/
structure ListAttsV2Ok where
  version : ForkVersion
  data : List PoolAtt
  deriving DecidableEq, Repr

/-- ListAttestationsV2: parse the two query parameters, fetch the read-only
head state, enumerate aggregated then unaggregated attestations, and downcast
every entry to the variant selected by the head-state fork; the response is
annotated with that fork's version string. -/
def ListAttestationsV2 (s : Server) (slotQ ciQ : QueryParam) : Except Resp ListAttsV2Ok :=
  match slotQ.parse with
  | none => Except.error (Resp.err 400 ("slot is invalid"))
  | some slotFilter =>
    match ciQ.parse with
    | none => Except.error (Resp.err 400 ("committee_index is invalid"))
    | some ciFilter =>
      match s.headStateReadOnly with
      | Except.error e => Except.error (Resp.err 500 ("Could not get head state: " ++ e))
      | Except.ok st =>
        match s.unaggregatedAttestations with
        | Except.error e =>
          Except.error (Resp.err 500 ("Could not get unaggregated attestations: " ++ e))
        | Except.ok unagg =>
          let atts := s.aggregatedAttestations ++ unagg
          if vge st.version ForkVersion.electra then
            match listFilterElectra slotFilter ciFilter atts with
            | Except.error m => Except.error (Resp.err 500 m)
            | Except.ok l => Except.ok ⟨st.version, l⟩
          else
            match listFilterBase slotFilter ciFilter atts with
            | Except.error m => Except.error (Resp.err 500 m)
            | Except.ok l => Except.ok ⟨st.version, l⟩

/-- Downcast loop of GetAttesterSlashingsV2 for a head state at or past
Electra: every pool slashing must be the Electra variant. -/
def slashListElectra : List PoolSlashing → Except String (List PoolSlashing)
  | [] => Except.ok []
  | PoolSlashing.base _ :: _ =>
    Except.error ("Unable to convert slashing of type base to an Electra slashing")
  | PoolSlashing.electra t :: rest =>
    match slashListElectra rest with
    | Except.error m => Except.error m
    | Except.ok l => Except.ok (PoolSlashing.electra t :: l)

/-- Downcast loop of GetAttesterSlashingsV2 for a pre-Electra head state. -/
def slashListBase : List PoolSlashing → Except String (List PoolSlashing)
  | [] => Except.ok []
  | PoolSlashing.electra _ :: _ =>
    Except.error ("Unable to convert slashing of type electra to a Phase0 slashing")
  | PoolSlashing.base t :: rest =>
    match slashListBase rest with
    | Except.error m => Except.error m
    | Except.ok l => Except.ok (PoolSlashing.base t :: l)

/-- Successful GetAttesterSlashingsV2 response: the version field (also set as
the Eth-Consensus-Version response header) and the converted entries. -/
structure SlashingsV2Ok where
  version : ForkVersion
  data : List PoolSlashing
  deriving DecidableEq, Repr

/-- GetAttesterSlashingsV2: fetch the read-only head state, enumerate the
pending attester slashings (unlimited), and downcast every entry to the variant
selected by the head-state fork. -/
def GetAttesterSlashingsV2 (s : Server) : Except Resp SlashingsV2Ok :=
  match s.headStateReadOnly with
  | Except.error e => Except.error (Resp.err 500 ("Could not get head state: " ++ e))
  | Except.ok st =>
    let src := s.pendingAttesterSlashings st
    if vge st.version ForkVersion.electra then
      match slashListElectra src with
      | Except.error m => Except.error (Resp.err 500 m)
      | Except.ok l => Except.ok ⟨st.version, l⟩
    else
      match slashListBase src with
      | Except.error m => Except.error (Resp.err 500 m)
      | Except.ok l => Except.ok ⟨st.version, l⟩

/-- Whether a pool attestation is of the variant the given head fork selects. -/
def attVariantOk (v : ForkVersion) : PoolAtt → Bool
  | PoolAtt.base _ => !vge v ForkVersion.electra
  | PoolAtt.electra _ => vge v ForkVersion.electra

/-- Whether a pool slashing is of the variant the given head fork selects. -/
def slashingVariantOk (v : ForkVersion) : PoolSlashing → Bool
  | PoolSlashing.base _ => !vge v ForkVersion.electra
  | PoolSlashing.electra _ => vge v ForkVersion.electra

/-- A concrete unaggregated attestation (one aggregation bit set). -/
def att0 : Attestation := ⟨[true], ⟨0, 0⟩, [0]⟩

/-- A concrete unaggregated Electra attestation with one committee bit set. -/
def attE0 : AttestationElectra := ⟨[true], ⟨0, 0⟩, [true], [0]⟩

/-- Concrete wire values used by the concrete scenarios. -/
def w0 : WireAtt := ⟨0⟩

/-- A second wire attestation, distinguishable from w0. -/
def w1 : WireAtt := ⟨1⟩

/-- A concrete Electra wire attestation. -/
def we0 : WireAttElectra := ⟨0⟩

/-- A concrete signed BLS-to-execution change. -/
def ch0 : SignedBLSToExecutionChange := ⟨0⟩

/-- A concrete wire BLS-to-execution change. -/
def wb0 : WireBLS := ⟨0⟩

/-- A concrete signed voluntary exit. -/
def sve0 : SignedVoluntaryExit := ⟨⟨0, 0⟩, [0]⟩

/-- A concrete attester slashing. -/
def slashing0 : AttSlashing := AttSlashing.base 0 0

/-- A concrete wire attester slashing. -/
def ws0 : WireAttSlashing := ⟨0⟩

/-- A concrete Electra wire attester slashing. -/
def wse0 : WireAttSlashingElectra := ⟨0⟩

/-- A concrete wire proposer slashing. -/
def wp0 : WireProposerSlashing := ⟨0⟩

/-- A concrete head state at the Capella fork. -/
def headCapella : HeadState := ⟨ForkVersion.capella, 0⟩

/-- A server whose collaborators all succeed. -/
def baseServer : Server where
  attToConsensus := fun _ => Except.ok att0
  attElectraToConsensus := fun _ => Except.ok attE0
  signatureFromBytes := fun _ => Except.ok ()
  headValidatorsIndices := fun _ => Except.ok [0]
  computeSubnet := fun _ _ _ => 0
  broadcastAttestation := fun _ _ => Except.ok ()
  broadcastAttestationElectra := fun _ _ => Except.ok ()
  headState := Except.ok headCapella
  headStateReadOnly := Except.ok headCapella
  processSlotsIfPossible := fun st _ => Except.ok st
  exitToConsensus := fun _ => Except.ok sve0
  validatorAtIndexReadOnly := fun _ _ => Except.ok ⟨0⟩
  verifyExitAndSignature := fun _ _ _ => Except.ok ()
  broadcastExit := fun _ => Except.ok ()
  attSlashingToConsensus := fun _ => Except.ok slashing0
  attSlashingElectraToConsensus := fun _ => Except.ok (AttSlashing.electra 0 0)
  verifyAttesterSlashing := fun _ _ => Except.ok ()
  insertAttesterSlashing := fun _ _ => Except.ok ()
  proposerSlashingToConsensus := fun _ => Except.ok ⟨0, 0⟩
  verifyProposerSlashing := fun _ _ => Except.ok ()
  insertProposerSlashing := fun _ _ => Except.ok ()
  disableBroadcastSlashings := false
  broadcastAttSlashing := fun _ => Except.ok ()
  broadcastProposerSlashing := fun _ => Except.ok ()
  blsChangeToConsensus := fun _ => Except.ok ch0
  validateBLSToExecutionChange := fun _ _ => Except.ok ()
  verifyBLSChangeSignature := fun _ _ => Except.ok ()
  broadcastBLSChange := fun _ => Except.ok ()
  aggregatedAttestations := []
  unaggregatedAttestations := Except.ok []
  pendingAttesterSlashings := fun _ => []

/-- A server whose attestation broadcaster always fails. -/
def serverBroadcastFail : Server :=
  { baseServer with
    broadcastAttestation := fun _ _ => Except.error ("broadcast failed")
    broadcastAttestationElectra := fun _ _ => Except.error ("broadcast failed") }

/-- A server where the wire attestation with tag 0 fails conversion and the
broadcaster always fails: item 0 fails Phase A, item 1 survives and then fails
its broadcast. -/
def serverMixedFail : Server :=
  { baseServer with
    attToConsensus := fun w =>
      if w.tag = 0 then Except.error ("bad att") else Except.ok att0
    broadcastAttestation := fun _ _ => Except.error ("net down") }

/-- A second Electra wire attestation, distinguishable from we0. -/
def we1 : WireAttElectra := ⟨1⟩

/-- A server where the Electra wire attestation with tag 0 fails conversion and
the Electra broadcaster always fails: item 0 fails Phase A, item 1 survives and
then fails its broadcast (the base-variant collaborators behave likewise). -/
def serverMixedFailE : Server :=
  { baseServer with
    attToConsensus := fun w =>
      if w.tag = 0 then Except.error ("bad att") else Except.ok att0
    broadcastAttestation := fun _ _ => Except.error ("net down")
    attElectraToConsensus := fun w =>
      if w.tag = 0 then Except.error ("bad att") else Except.ok attE0
    broadcastAttestationElectra := fun _ _ => Except.error ("net down") }

/-- A server whose BLS re-validation succeeds only against the submission-time
head snapshot (tag 0) and fails against any later snapshot: the change becomes
invalid between submission and the deferred round. -/
def serverBLSInvalidated : Server :=
  { baseServer with
    validateBLSToExecutionChange := fun st _ =>
      if st.tag = 0 then Except.ok () else Except.error ("already included in a block") }

/-- A server with a Deneb head state and one base-variant attestation and one
base-variant slashing staged. -/
def serverDeneb : Server :=
  { baseServer with
    headStateReadOnly := Except.ok ⟨ForkVersion.deneb, 0⟩
    aggregatedAttestations := [PoolAtt.base att0]
    pendingAttesterSlashings := fun _ => [PoolSlashing.base 0] }

/-- The head state fetched by the deferred loop at its second round in the
invalidation scenario: still at Capella, but a later snapshot (tag 1). -/
def stRound1 : HeadState := ⟨ForkVersion.capella, 1⟩

/-- A request-scoped context that is canceled from the first ticker tick on:
in Go the request context is canceled once the handler returns its response. -/
def ctxReqCanceled : Ctx := fun t => decide (0 < t)

/-- A context that is never canceled (a live parent). -/
def ctxNeverCanceled : Ctx := fun _ => false

/-- A head-state stream whose fetch always succeeds at Capella. -/
def stAtOk : Nat → Except String HeadState := fun _ => Except.ok headCapella

/-- A batch of 200 pending changes, enough for two rate-limited rounds. -/
def batch200 : List (Option SignedBLSToExecutionChange) := List.replicate 200 (some ch0)

/-- The corresponding 200-element submission body. -/
def req200 : List WireBLS := List.replicate 200 wb0

/-- The rate limit truncation of a batch is the minimum of its length and 128. -/
theorem limit_eq_min (n : Nat) :
    (if n < broadcastBLSChangesRateLimit then n else broadcastBLSChangesRateLimit) =
      min n broadcastBLSChangesRateLimit := by
  by_cases h : n < broadcastBLSChangesRateLimit
  · rw [if_pos h]
    exact (min_eq_left (Nat.le_of_lt h)).symm
  · rw [if_neg h]
    exact (min_eq_right (Nat.le_of_not_lt h)).symm

/-- Claim C1 (counterexample): a single attestation that passes Phase A and
whose broadcast fails is recorded in failedBroadcasts, but contrary to the
claim no SaveAggregatedAttestation or SaveUnaggregatedAttestation effect is
performed for it: the effect trace ends at the broadcast attempt. -/
theorem C1_counterexample :
    handleAttestations serverBroadcastFail (some [w0]) =
      ⟨[], ["0"],
       [AttEffect.notifyUnaggregated att0, AttEffect.broadcastAttempt 0 att0], none⟩ := by
  rfl

/-- Claim C1 (amended): in both attestation handlers, an item that passes
Phase A and whose broadcast fails has its index recorded in failedBroadcasts
and is skipped: its effect trace is exactly the notifier publish (when
unaggregated) followed by the broadcast attempt, with no pool save. -/
theorem C1_broadcast_failure_skips_pool_insert
    (s : Server) (i : Nat) (att : Attestation) (attE : AttestationElectra)
    (vals valsE : List Nat) (m mE : String) (ci : Nat)
    (hv : s.headValidatorsIndices (ToEpoch att.data.slot) = Except.ok vals)
    (hb : s.broadcastAttestation
      (s.computeSubnet vals.length att.data.committeeIndex att.data.slot) att =
      Except.error m)
    (hvE : s.headValidatorsIndices (ToEpoch attE.data.slot) = Except.ok valsE)
    (hciE : GetCommitteeIndex attE.committeeBits = Except.ok ci)
    (hbE : s.broadcastAttestationElectra
      (s.computeSubnet valsE.length ci attE.data.slot) attE = Except.error mE) :
    attStep s i att =
      (attNotifyFx att ++
        [AttEffect.broadcastAttempt
          (s.computeSubnet vals.length att.data.committeeIndex att.data.slot) att],
       [Nat.repr i]) ∧
    attStepElectra s i attE =
      (attNotifyFxE attE ++
        [AttEffectE.broadcastAttempt (s.computeSubnet valsE.length ci attE.data.slot) attE],
       [Nat.repr i], none) := by
  constructor
  · simp only [attStep, hv, hb]
  · simp only [attStepElectra, hvE, hciE, hbE]

/-- Claim C1 (witness): the amended statement holds at the concrete failing
broadcaster for both variants. -/
theorem C1_witness :
    attStep serverBroadcastFail 0 att0 =
      (attNotifyFx att0 ++ [AttEffect.broadcastAttempt 0 att0], ["0"]) ∧
    attStepElectra serverBroadcastFail 0 attE0 =
      (attNotifyFxE attE0 ++ [AttEffectE.broadcastAttempt 0 attE0], ["0"], none) :=
  C1_broadcast_failure_skips_pool_insert serverBroadcastFail 0 att0 attE0 [0] [0]
    ("broadcast failed") ("broadcast failed") 0 rfl rfl rfl rfl rfl

/-- Claim C9 (counterexample): the body `[]` decodes successfully into an empty
batch, and the V1 endpoint answers 400 with the lowercase message
"no data submitted" coming from handleAttestations, not the claimed
"No data submitted" (which is produced only for an empty body). -/
theorem C9_counterexample :
    SubmitAttestations baseServer (Body.data (some [])) =
      (Resp.err 400 ("no data submitted"), []) ∧
    ("no data submitted" : String) ≠ ("No data submitted" : String) := by
  exact ⟨rfl, by decide⟩

/-- Claim C9 (amended): a POST with the body `[]` returns 400 with the message
"no data submitted" and performs no side effect at all; the message
"No data submitted" is returned for an empty request body (io.EOF). -/
theorem C9_empty_batch_is_rejected_without_effects (s : Server) :
    SubmitAttestations s (Body.data (some [])) = (Resp.err 400 ("no data submitted"), []) ∧
    SubmitAttestations s Body.eof = (Resp.err 400 ("No data submitted"), []) := by
  exact ⟨rfl, rfl⟩

/-- Claim C3 (code bug): with the Eth-Consensus-Version header absent,
SubmitAttesterSlashingsV2 writes the missing-header 400 but, lacking a
`return`, continues and writes a second 400 from parsing the empty version
string; SubmitAttestationsV2 by contrast stops after the single 400. -/
theorem C3_missing_return_double_write :
    SubmitAttesterSlashingsV2 baseServer ("") (Body.data ⟨Except.ok ws0, Except.ok wse0⟩) =
      ([Resp.err 400 (VersionHeader ++ " header is required"),
        Resp.err 400 ("Invalid version: unknown version string ")], []) ∧
    SubmitAttestationsV2 baseServer ("") (Body.data ⟨some [w0], some [we0]⟩) =
      (Resp.err 400 (VersionHeader ++ " header is required"), [], []) := by
  exact ⟨rfl, rfl⟩

/-- Every task spawned by the BLS submission endpoint carries the request
context that was passed to the handler. -/
theorem spawned_ctx_eq (s : Server) (reqCtx : Ctx) (body : Body (List WireBLS))
    (task : SpawnedBLSTask)
    (h : (SubmitBLSToExecutionChanges s reqCtx body).spawned = some task) :
    task.ctx = reqCtx := by
  unfold SubmitBLSToExecutionChanges at h
  repeat' split at h
  all_goals dsimp only at h
  all_goals try split at h
  all_goals first
    | (have h2 := Option.some.inj h
       subst h2
       rfl)
    | simp at h

set_option maxRecDepth 20000 in
/-- Claim C4 (counterexample): with a request context canceled after the
response (as the Go request context is), a 200-item submission broadcasts only
the first rate-limited round and the loop stops with 72 items left; the same
batch drains fully under a context that is never canceled.  The spawned task
carries exactly the request context. -/
theorem C4_counterexample :
    (SubmitBLSToExecutionChanges baseServer ctxReqCanceled (Body.data req200)).spawned =
      some ⟨ctxReqCanceled, batch200⟩ ∧
    (broadcastBLSChanges baseServer ctxReqCanceled stAtOk 10 batch200).2.length = 72 ∧
    (broadcastBLSChanges baseServer ctxNeverCanceled stAtOk 10 batch200).2 = [] := by
  exact ⟨rfl, rfl, rfl⟩

/-- Claim C4 (amended): the deferred loop is handed the request-scoped context
(the spawned task's context is exactly the request context), and cancellation
of that context makes the loop return at the next tick with its batch
unconsumed; there is no separate server-context wiring. -/
theorem C4_request_context_cancels_loop
    (s : Server) (reqCtx : Ctx) (body : Body (List WireBLS)) (task : SpawnedBLSTask)
    (stAt : Nat → Except String HeadState) (fuel t : Nat)
    (batch : List (Option SignedBLSToExecutionChange))
    (hsp : (SubmitBLSToExecutionChanges s reqCtx body).spawned = some task)
    (hc : reqCtx t = true) :
    task.ctx = reqCtx ∧ broadcastBLSLoop s reqCtx stAt fuel t batch = ([], batch) := by
  refine ⟨spawned_ctx_eq s reqCtx body task hsp, ?_⟩
  cases fuel with
  | zero => rfl
  | succ n =>
    simp only [broadcastBLSLoop]
    rw [hc]
    simp

/-- Claim C4 (witness): the amended statement at the concrete canceled request
context and a one-element pending batch. -/
theorem C4_witness :
    SpawnedBLSTask.ctx ⟨ctxReqCanceled, [some ch0]⟩ = ctxReqCanceled ∧
    broadcastBLSLoop baseServer ctxReqCanceled stAtOk 5 1 [some ch0] = ([], [some ch0]) :=
  C4_request_context_cancels_loop baseServer ctxReqCanceled (Body.data [wb0])
    ⟨ctxReqCanceled, [some ch0]⟩ stAtOk 5 1 [some ch0] rfl rfl

/-- In a round whose head-state fetch succeeds, exactly the first
min(len, 128) entries are removed from the batch. -/
theorem broadcastBLSBatch_ok_snd (s : Server) (st : HeadState)
    (batch : List (Option SignedBLSToExecutionChange)) :
    (broadcastBLSBatch s (Except.ok st) batch).2 =
      batch.drop (min batch.length broadcastBLSChangesRateLimit) := by
  simp only [broadcastBLSBatch, limit_eq_min]

/-- Every item handed to the broadcaster in a round comes from the first
min(len, 128) entries and passed re-validation against the round's state. -/
theorem broadcastBLSBatch_ok_fst_subset (s : Server) (st : HeadState)
    (batch : List (Option SignedBLSToExecutionChange)) (c : SignedBLSToExecutionChange)
    (hc : c ∈ (broadcastBLSBatch s (Except.ok st) batch).1) :
    some c ∈ batch.take (min batch.length broadcastBLSChangesRateLimit) ∧
    s.validateBLSToExecutionChange st c = Except.ok () := by
  simp only [broadcastBLSBatch, limit_eq_min] at hc
  rcases List.mem_filterMap.mp hc with ⟨o, ho, hf⟩
  cases o with
  | none => simp at hf
  | some ch =>
    dsimp only at hf
    cases hv : s.validateBLSToExecutionChange st ch with
    | error e => rw [hv] at hf; simp at hf
    | ok u =>
      rw [hv] at hf
      simp at hf
      subst hf
      cases u
      exact ⟨ho, hv⟩

/-- Conversely, a non-nil entry among the first min(len, 128) that passes
re-validation is handed to the broadcaster, with no condition on the round
state's fork. -/
theorem broadcastBLSBatch_fst_mem (s : Server) (st : HeadState)
    (batch : List (Option SignedBLSToExecutionChange)) (c : SignedBLSToExecutionChange)
    (hmem : some c ∈ batch.take (min batch.length broadcastBLSChangesRateLimit))
    (hv : s.validateBLSToExecutionChange st c = Except.ok ()) :
    c ∈ (broadcastBLSBatch s (Except.ok st) batch).1 := by
  simp only [broadcastBLSBatch, limit_eq_min]
  exact List.mem_filterMap.mpr ⟨some c, hmem, by simp [hv]⟩

/-- At most 128 items are handed to the broadcaster in one round. -/
theorem broadcastBLSBatch_fst_length (s : Server) (st : HeadState)
    (batch : List (Option SignedBLSToExecutionChange)) :
    (broadcastBLSBatch s (Except.ok st) batch).1.length ≤ broadcastBLSChangesRateLimit := by
  simp only [broadcastBLSBatch, limit_eq_min]
  calc ((batch.take (min batch.length broadcastBLSChangesRateLimit)).filterMap _).length
      ≤ (batch.take (min batch.length broadcastBLSChangesRateLimit)).length :=
        List.length_filterMap_le _ _
    _ ≤ min batch.length broadcastBLSChangesRateLimit := List.length_take_le _ _
    _ ≤ broadcastBLSChangesRateLimit := min_le_right _ _

/-- Claim C5 (counterexample): a round whose head-state retrieval fails
broadcasts nothing and removes nothing from the batch, although
min(128, remaining) = 1 items were claimed to be removed in every round. -/
theorem C5_counterexample :
    broadcastBLSBatch baseServer (Except.error ("could not get head state")) [some ch0] =
      ([], [some ch0]) ∧
    min 128 1 = 1 := by
  exact ⟨rfl, rfl⟩

/-- Claim C5 (amended): in a round whose head-state retrieval succeeds, at most
128 changes are broadcast, every broadcast change comes from the first
min(128, remaining) entries and passed re-validation against the round's head
state, a change failing re-validation is not broadcast (the loop never touches
the pool), and exactly the first min(128, remaining) entries are removed; a
round whose head-state retrieval fails broadcasts nothing and removes nothing,
retrying at the next tick. -/
theorem C5_round_behavior (s : Server) (st : HeadState)
    (batch : List (Option SignedBLSToExecutionChange)) (e m : String)
    (ch : SignedBLSToExecutionChange)
    (hv : s.validateBLSToExecutionChange st ch = Except.error m) :
    (broadcastBLSBatch s (Except.ok st) batch).2 =
      batch.drop (min batch.length broadcastBLSChangesRateLimit) ∧
    (broadcastBLSBatch s (Except.ok st) batch).1.length ≤ broadcastBLSChangesRateLimit ∧
    (∀ c, c ∈ (broadcastBLSBatch s (Except.ok st) batch).1 →
      some c ∈ batch.take (min batch.length broadcastBLSChangesRateLimit) ∧
      s.validateBLSToExecutionChange st c = Except.ok ()) ∧
    ch ∉ (broadcastBLSBatch s (Except.ok st) batch).1 ∧
    broadcastBLSBatch s (Except.error e) batch = ([], batch) ∧
    (∀ (ctx : Ctx) (stAt : Nat → Except String HeadState) (fuel t : Nat)
        (b : List (Option SignedBLSToExecutionChange)), ctx t = true →
      broadcastBLSLoop s ctx stAt fuel t b = ([], b)) ∧
    (∀ (ctx : Ctx) (stAt : Nat → Except String HeadState) (fuel : Nat)
        (b : List (Option SignedBLSToExecutionChange)),
      (broadcastBLSBatch s (stAt 0) b).2 = [] →
      broadcastBLSChanges s ctx stAt fuel b = ([(broadcastBLSBatch s (stAt 0) b).1], [])) := by
  refine ⟨broadcastBLSBatch_ok_snd s st batch, broadcastBLSBatch_fst_length s st batch,
    fun c hc => broadcastBLSBatch_ok_fst_subset s st batch c hc, ?_, rfl, ?_, ?_⟩
  · intro hmem
    have h2 := (broadcastBLSBatch_ok_fst_subset s st batch ch hmem).2
    rw [hv] at h2
    exact Except.noConfusion h2
  · intro ctx stAt fuel t b hc
    cases fuel with
    | zero => rfl
    | succ n =>
      simp only [broadcastBLSLoop]
      rw [hc]
      simp
  · intro ctx stAt fuel b hempty
    unfold broadcastBLSChanges
    dsimp only
    rw [hempty]
    simp

/-- Claim C5 (witness): the amended statement at the concrete server whose
re-validation fails against the round-time head snapshot. -/
theorem C5_witness :
    ch0 ∉ (broadcastBLSBatch serverBLSInvalidated (Except.ok stRound1) [some ch0]).1 ∧
    broadcastBLSBatch serverBLSInvalidated (Except.error ("no head")) [some ch0] =
      ([], [some ch0]) := by
  have h := C5_round_behavior serverBLSInvalidated stRound1 [some ch0] ("no head")
    ("already included in a block") ch0 rfl
  exact ⟨h.2.2.2.1, h.2.2.2.2.1⟩

/-- The broadcast batch built by the submission loop: the accepted items when
the submission-time head fork is at least Capella, nothing otherwise. -/
theorem blsProcess_toBroadcast (s : Server) (st : HeadState) :
    ∀ (req : List WireBLS) (i : Nat),
      (blsProcess s st i req).2.2 =
        if vge st.version ForkVersion.capella then blsAcceptedList s st req else [] := by
  intro req
  induction req with
  | nil =>
    intro i
    simp [blsProcess, blsAcceptedList]
  | cons w rest ih =>
    intro i
    simp only [blsProcess, blsAcceptedList, List.filterMap_cons]
    cases h1 : s.blsChangeToConsensus w with
    | error e =>
      have ha : blsAccept s st w = none := by simp [blsAccept, h1]
      simp only [h1, ha]
      simpa [blsAcceptedList] using ih (i + 1)
    | ok sbls =>
      cases h2 : s.validateBLSToExecutionChange st sbls with
      | error e =>
        have ha : blsAccept s st w = none := by simp [blsAccept, h1, h2]
        simp only [h1, h2, ha]
        simpa [blsAcceptedList] using ih (i + 1)
      | ok u =>
        cases h3 : s.verifyBLSChangeSignature st sbls with
        | error e =>
          have ha : blsAccept s st w = none := by simp [blsAccept, h1, h2, h3]
          simp only [h1, h2, h3, ha]
          simpa [blsAcceptedList] using ih (i + 1)
        | ok u2 =>
          have ha : blsAccept s st w = some sbls := by simp [blsAccept, h1, h2, h3]
          simp only [h1, h2, h3, ha]
          rw [ih (i + 1)]
          by_cases hc : vge st.version ForkVersion.capella
          · simp [hc, blsAcceptedList]
          · simp [hc]

/-- Claim C7 (counterexample): a valid change accepted at a Capella head is
handed to the deferred task, the head fork at the deferred round is still at
least Capella, yet the change is dropped by re-validation and never handed to
the broadcaster — refuting "broadcast iff head fork is at least Capella at the
moment of broadcast". -/
theorem C7_counterexample :
    (SubmitBLSToExecutionChanges serverBLSInvalidated ctxNeverCanceled
        (Body.data [wb0])).spawned = some ⟨ctxNeverCanceled, [some ch0]⟩ ∧
    vge stRound1.version ForkVersion.capella = true ∧
    broadcastBLSBatch serverBLSInvalidated (Except.ok stRound1) [some ch0] = ([], []) := by
  exact ⟨rfl, rfl, rfl⟩

/-- Claim C7 (amended): the fork gate is evaluated against the submission-time
head state: the deferred task receives exactly the accepted changes when that
state's fork is at least Capella, and nothing otherwise (so a valid change
submitted below Capella is never handed to the broadcaster); the deferred
round itself performs no fork check — it broadcasts a batched change iff the
change passes re-validation against the round's head state. -/
theorem C7_fork_gate_at_submission
    (s : Server) (reqCtx : Ctx) (req : List WireBLS) (st : HeadState)
    (hst : s.headStateReadOnly = Except.ok st) (hne : req ≠ []) :
    (vge st.version ForkVersion.capella = false →
      (SubmitBLSToExecutionChanges s reqCtx (Body.data req)).spawned =
        some ⟨reqCtx, []⟩) ∧
    (vge st.version ForkVersion.capella = true →
      (SubmitBLSToExecutionChanges s reqCtx (Body.data req)).spawned =
        some ⟨reqCtx, (blsAcceptedList s st req).map some⟩) ∧
    (∀ (stR : HeadState) (batch : List (Option SignedBLSToExecutionChange))
        (c : SignedBLSToExecutionChange),
      c ∈ (broadcastBLSBatch s (Except.ok stR) batch).1 →
      s.validateBLSToExecutionChange stR c = Except.ok ()) ∧
    (∀ (stR : HeadState) (batch : List (Option SignedBLSToExecutionChange))
        (c : SignedBLSToExecutionChange),
      some c ∈ batch.take (min batch.length broadcastBLSChangesRateLimit) →
      s.validateBLSToExecutionChange stR c = Except.ok () →
      c ∈ (broadcastBLSBatch s (Except.ok stR) batch).1) := by
  have hie : req.isEmpty = false := by
    cases req with
    | nil => exact absurd rfl hne
    | cons a l => rfl
  have hspawn : (SubmitBLSToExecutionChanges s reqCtx (Body.data req)).spawned =
      some ⟨reqCtx, ((blsProcess s st 0 req).2.2).map some⟩ := by
    unfold SubmitBLSToExecutionChanges
    rw [hst]
    cases req with
    | nil => exact absurd rfl hne
    | cons a l =>
      dsimp only
      split
      · next htrue => simp at htrue
      · split
        · rfl
        · rfl
  refine ⟨?_, ?_, ?_, ?_⟩
  · intro hfork
    rw [hspawn, blsProcess_toBroadcast s st req 0, hfork]
    rfl
  · intro hfork
    rw [hspawn, blsProcess_toBroadcast s st req 0, hfork]
    rfl
  · intro stR batch c hc
    exact (broadcastBLSBatch_ok_fst_subset s stR batch c hc).2
  · intro stR batch c hmem hv
    exact broadcastBLSBatch_fst_mem s stR batch c hmem hv

/-- Claim C7 (witness): the amended statement at the concrete Capella-head
server: the accepted batch is handed to the spawned task. -/
theorem C7_witness :
    (SubmitBLSToExecutionChanges serverBLSInvalidated ctxNeverCanceled
        (Body.data [wb0])).spawned =
      some ⟨ctxNeverCanceled,
        (blsAcceptedList serverBLSInvalidated headCapella [wb0]).map some⟩ :=
  (C7_fork_gate_at_submission serverBLSInvalidated ctxNeverCanceled [wb0] headCapella rfl
    (by decide)).2.1 rfl

/-- With any failed broadcast present, the response policy yields the 500. -/
theorem attSubmitResp_of_fb (r : HandleOutcome) (h : r.failedBroadcasts ≠ []) :
    attSubmitResp r = Resp.err 500 ("Attestations at index " ++
      String.intercalate ", " r.failedBroadcasts ++ " could not be broadcasted") := by
  unfold attSubmitResp
  rw [if_pos (List.length_pos.mpr h)]

/-- The 400 failures-list response occurs only with no failed broadcast. -/
theorem attSubmitResp_indexed (r : HandleOutcome) (fails : List (Nat × String))
    (h : attSubmitResp r =
      Resp.indexedFailures 400 ("One or more attestations failed validation") fails) :
    r.failedBroadcasts = [] := by
  unfold attSubmitResp at h
  by_cases hfb : 0 < r.failedBroadcasts.length
  · rw [if_pos hfb] at h
    exact absurd h (by simp)
  · exact List.eq_nil_of_length_eq_zero (by omega)

/-- Electra variant of attSubmitResp_of_fb. -/
theorem attSubmitRespE_of_fb (r : HandleOutcomeE) (h : r.failedBroadcasts ≠ []) :
    attSubmitRespE r = Resp.err 500 ("Attestations at index " ++
      String.intercalate ", " r.failedBroadcasts ++ " could not be broadcasted") := by
  unfold attSubmitRespE
  rw [if_pos (List.length_pos.mpr h)]

/-- Electra variant of attSubmitResp_indexed. -/
theorem attSubmitRespE_indexed (r : HandleOutcomeE) (fails : List (Nat × String))
    (h : attSubmitRespE r =
      Resp.indexedFailures 400 ("One or more attestations failed validation") fails) :
    r.failedBroadcasts = [] := by
  unfold attSubmitRespE at h
  by_cases hfb : 0 < r.failedBroadcasts.length
  · rw [if_pos hfb] at h
    exact absurd h (by simp)
  · exact List.eq_nil_of_length_eq_zero (by omega)

/-- With a non-fatal handle, the V1 endpoint's response is the shared policy. -/
theorem SubmitAttestations_data (s : Server) (d : Option (List WireAtt))
    (hf : (handleAttestations s d).fatal = none) :
    (SubmitAttestations s (Body.data d)).1 = attSubmitResp (handleAttestations s d) := by
  unfold SubmitAttestations
  dsimp only
  split
  · next e heq => rw [hf] at heq; exact Option.noConfusion heq
  · rfl

/-- With a valid version header at or past Electra and a non-fatal handle, the
V2 endpoint's response is the shared policy on the Electra outcome. -/
theorem SubmitAttestationsV2_data_electra (s : Server) (vh : String) (v : ForkVersion)
    (raw : RawAtts) (hne : vh ≠ "") (hv : FromString vh = Except.ok v)
    (he : vge v ForkVersion.electra = true)
    (hf : (handleAttestationsElectra s raw.asElectra).fatal = none) :
    (SubmitAttestationsV2 s vh (Body.data raw)).1 =
      attSubmitRespE (handleAttestationsElectra s raw.asElectra) := by
  unfold SubmitAttestationsV2
  rw [if_neg hne, hv]
  dsimp only
  rw [he, if_pos rfl]
  split
  · next e heq => rw [hf] at heq; exact Option.noConfusion heq
  · rfl

/-- With a valid pre-Electra version header and a non-fatal handle, the V2
endpoint's response is the shared policy on the base outcome. -/
theorem SubmitAttestationsV2_data_base (s : Server) (vh : String) (v : ForkVersion)
    (raw : RawAtts) (hne : vh ≠ "") (hv : FromString vh = Except.ok v)
    (he : vge v ForkVersion.electra = false)
    (hf : (handleAttestations s raw.asBase).fatal = none) :
    (SubmitAttestationsV2 s vh (Body.data raw)).1 =
      attSubmitResp (handleAttestations s raw.asBase) := by
  unfold SubmitAttestationsV2
  rw [if_neg hne, hv]
  dsimp only
  rw [he, if_neg (by decide)]
  split
  · next e heq => rw [hf] at heq; exact Option.noConfusion heq
  · rfl

/-- Claim C6: in both attestation submission endpoints, a non-empty
failedBroadcasts list yields the 500 listing those indices — even when Phase A
failures are also present — and the 400 failures-list response is produced
only when failedBroadcasts is empty. -/
theorem C6_broadcast_failures_take_priority (s : Server) :
    (∀ d, (handleAttestations s d).fatal = none →
      ((handleAttestations s d).failedBroadcasts ≠ [] →
        (SubmitAttestations s (Body.data d)).1 =
          Resp.err 500 ("Attestations at index " ++
            String.intercalate ", " (handleAttestations s d).failedBroadcasts ++
            " could not be broadcasted")) ∧
      (∀ fails, (SubmitAttestations s (Body.data d)).1 =
          Resp.indexedFailures 400 ("One or more attestations failed validation") fails →
        (handleAttestations s d).failedBroadcasts = [])) ∧
    (∀ vh v raw, vh ≠ "" → FromString vh = Except.ok v →
      vge v ForkVersion.electra = true →
      (handleAttestationsElectra s raw.asElectra).fatal = none →
      (((handleAttestationsElectra s raw.asElectra).failedBroadcasts ≠ [] →
        (SubmitAttestationsV2 s vh (Body.data raw)).1 =
          Resp.err 500 ("Attestations at index " ++
            String.intercalate ", "
              (handleAttestationsElectra s raw.asElectra).failedBroadcasts ++
            " could not be broadcasted")) ∧
      (∀ fails, (SubmitAttestationsV2 s vh (Body.data raw)).1 =
          Resp.indexedFailures 400 ("One or more attestations failed validation") fails →
        (handleAttestationsElectra s raw.asElectra).failedBroadcasts = []))) ∧
    (∀ vh v raw, vh ≠ "" → FromString vh = Except.ok v →
      vge v ForkVersion.electra = false →
      (handleAttestations s raw.asBase).fatal = none →
      (((handleAttestations s raw.asBase).failedBroadcasts ≠ [] →
        (SubmitAttestationsV2 s vh (Body.data raw)).1 =
          Resp.err 500 ("Attestations at index " ++
            String.intercalate ", " (handleAttestations s raw.asBase).failedBroadcasts ++
            " could not be broadcasted")) ∧
      (∀ fails, (SubmitAttestationsV2 s vh (Body.data raw)).1 =
          Resp.indexedFailures 400 ("One or more attestations failed validation") fails →
        (handleAttestations s raw.asBase).failedBroadcasts = []))) := by
  refine ⟨?_, ?_, ?_⟩
  · intro d hfat
    constructor
    · intro hfb
      rw [SubmitAttestations_data s d hfat]
      exact attSubmitResp_of_fb _ hfb
    · intro fails hresp
      rw [SubmitAttestations_data s d hfat] at hresp
      exact attSubmitResp_indexed _ fails hresp
  · intro vh v raw hne hv he hfat
    constructor
    · intro hfb
      rw [SubmitAttestationsV2_data_electra s vh v raw hne hv he hfat]
      exact attSubmitRespE_of_fb _ hfb
    · intro fails hresp
      rw [SubmitAttestationsV2_data_electra s vh v raw hne hv he hfat] at hresp
      exact attSubmitRespE_indexed _ fails hresp
  · intro vh v raw hne hv he hfat
    constructor
    · intro hfb
      rw [SubmitAttestationsV2_data_base s vh v raw hne hv he hfat]
      exact attSubmitResp_of_fb _ hfb
    · intro fails hresp
      rw [SubmitAttestationsV2_data_base s vh v raw hne hv he hfat] at hresp
      exact attSubmitResp_indexed _ fails hresp

/-- Claim C6 (witness): at the concrete server with one Phase A failure and one
broadcast failure in the same batch, the response is the 500 listing the
broadcast index, not the 400 failures list. -/
theorem C6_witness :
    (SubmitAttestations serverMixedFail (Body.data (some [w0, w1]))).1 =
      Resp.err 500 ("Attestations at index 0 could not be broadcasted") := by
  have h := ((C6_broadcast_failures_take_priority serverMixedFail).1 (some [w0, w1])
    rfl).1 (by decide)
  exact h.trans (by decide)

/-- A successful Electra filter pass returns only Electra-variant entries. -/
theorem listFilterElectra_ok_mem (sq cq : Option Nat) :
    ∀ (l r : List PoolAtt), listFilterElectra sq cq l = Except.ok r →
      ∀ x ∈ r, ∃ a, x = PoolAtt.electra a := by
  intro l
  induction l with
  | nil =>
    intro r h x hx
    simp only [listFilterElectra] at h
    cases h
    simp at hx
  | cons p rest ih =>
    cases p with
    | base a =>
      intro r h
      simp [listFilterElectra] at h
    | electra a =>
      intro r h x hx
      simp only [listFilterElectra] at h
      cases hrec : listFilterElectra sq cq rest with
      | error m => rw [hrec] at h; exact Except.noConfusion h
      | ok l2 =>
        rw [hrec] at h
        dsimp only at h
        cases h
        by_cases hinc : shouldIncludeAttestation a.data sq cq
        · rw [if_pos hinc] at hx
          rcases List.mem_cons.mp hx with h1 | h2
          · exact ⟨a, h1⟩
          · exact ih l2 hrec x h2
        · rw [if_neg hinc] at hx
          exact ih l2 hrec x hx

/-- A base-variant entry makes the Electra filter pass fail. -/
theorem listFilterElectra_err_of_base (sq cq : Option Nat) :
    ∀ (l : List PoolAtt), (∃ a, PoolAtt.base a ∈ l) →
      ∃ m, listFilterElectra sq cq l = Except.error m := by
  intro l
  induction l with
  | nil =>
    intro h
    rcases h with ⟨a, ha⟩
    simp at ha
  | cons p rest ih =>
    intro h
    cases p with
    | base b => exact ⟨"Unable to convert attestation of type base", rfl⟩
    | electra b =>
      rcases h with ⟨a, ha⟩
      rcases List.mem_cons.mp ha with h1 | h2
      · exact absurd h1 (by simp)
      · rcases ih ⟨a, h2⟩ with ⟨m, hm⟩
        exact ⟨m, by simp [listFilterElectra, hm]⟩

/-- A successful base filter pass returns only base-variant entries. -/
theorem listFilterBase_ok_mem (sq cq : Option Nat) :
    ∀ (l r : List PoolAtt), listFilterBase sq cq l = Except.ok r →
      ∀ x ∈ r, ∃ a, x = PoolAtt.base a := by
  intro l
  induction l with
  | nil =>
    intro r h x hx
    simp only [listFilterBase] at h
    cases h
    simp at hx
  | cons p rest ih =>
    cases p with
    | electra a =>
      intro r h
      simp [listFilterBase] at h
    | base a =>
      intro r h x hx
      simp only [listFilterBase] at h
      cases hrec : listFilterBase sq cq rest with
      | error m => rw [hrec] at h; exact Except.noConfusion h
      | ok l2 =>
        rw [hrec] at h
        dsimp only at h
        cases h
        by_cases hinc : shouldIncludeAttestation a.data sq cq
        · rw [if_pos hinc] at hx
          rcases List.mem_cons.mp hx with h1 | h2
          · exact ⟨a, h1⟩
          · exact ih l2 hrec x h2
        · rw [if_neg hinc] at hx
          exact ih l2 hrec x hx

/-- An Electra-variant entry makes the base filter pass fail. -/
theorem listFilterBase_err_of_electra (sq cq : Option Nat) :
    ∀ (l : List PoolAtt), (∃ a, PoolAtt.electra a ∈ l) →
      ∃ m, listFilterBase sq cq l = Except.error m := by
  intro l
  induction l with
  | nil =>
    intro h
    rcases h with ⟨a, ha⟩
    simp at ha
  | cons p rest ih =>
    intro h
    cases p with
    | electra b => exact ⟨"Unable to convert attestation of type electra", rfl⟩
    | base b =>
      rcases h with ⟨a, ha⟩
      rcases List.mem_cons.mp ha with h1 | h2
      · exact absurd h1 (by simp)
      · rcases ih ⟨a, h2⟩ with ⟨m, hm⟩
        exact ⟨m, by simp [listFilterBase, hm]⟩

/-- A successful Electra slashing pass returns only Electra-variant entries. -/
theorem slashListElectra_ok_mem :
    ∀ (l r : List PoolSlashing), slashListElectra l = Except.ok r →
      ∀ x ∈ r, ∃ t, x = PoolSlashing.electra t := by
  intro l
  induction l with
  | nil =>
    intro r h x hx
    simp only [slashListElectra] at h
    cases h
    simp at hx
  | cons p rest ih =>
    cases p with
    | base t =>
      intro r h
      simp [slashListElectra] at h
    | electra t =>
      intro r h x hx
      simp only [slashListElectra] at h
      cases hrec : slashListElectra rest with
      | error m => rw [hrec] at h; exact Except.noConfusion h
      | ok l2 =>
        rw [hrec] at h
        dsimp only at h
        cases h
        rcases List.mem_cons.mp hx with h1 | h2
        · exact ⟨t, h1⟩
        · exact ih l2 hrec x h2

/-- A base-variant slashing makes the Electra slashing pass fail. -/
theorem slashListElectra_err_of_base :
    ∀ (l : List PoolSlashing), (∃ t, PoolSlashing.base t ∈ l) →
      ∃ m, slashListElectra l = Except.error m := by
  intro l
  induction l with
  | nil =>
    intro h
    rcases h with ⟨t, ht⟩
    simp at ht
  | cons p rest ih =>
    intro h
    cases p with
    | base b => exact ⟨"Unable to convert slashing of type base to an Electra slashing", rfl⟩
    | electra b =>
      rcases h with ⟨t, ht⟩
      rcases List.mem_cons.mp ht with h1 | h2
      · exact absurd h1 (by simp)
      · rcases ih ⟨t, h2⟩ with ⟨m, hm⟩
        exact ⟨m, by simp [slashListElectra, hm]⟩

/-- A successful base slashing pass returns only base-variant entries. -/
theorem slashListBase_ok_mem :
    ∀ (l r : List PoolSlashing), slashListBase l = Except.ok r →
      ∀ x ∈ r, ∃ t, x = PoolSlashing.base t := by
  intro l
  induction l with
  | nil =>
    intro r h x hx
    simp only [slashListBase] at h
    cases h
    simp at hx
  | cons p rest ih =>
    cases p with
    | electra t =>
      intro r h
      simp [slashListBase] at h
    | base t =>
      intro r h x hx
      simp only [slashListBase] at h
      cases hrec : slashListBase rest with
      | error m => rw [hrec] at h; exact Except.noConfusion h
      | ok l2 =>
        rw [hrec] at h
        dsimp only at h
        cases h
        rcases List.mem_cons.mp hx with h1 | h2
        · exact ⟨t, h1⟩
        · exact ih l2 hrec x h2

/-- An Electra-variant slashing makes the base slashing pass fail. -/
theorem slashListBase_err_of_electra :
    ∀ (l : List PoolSlashing), (∃ t, PoolSlashing.electra t ∈ l) →
      ∃ m, slashListBase l = Except.error m := by
  intro l
  induction l with
  | nil =>
    intro h
    rcases h with ⟨t, ht⟩
    simp at ht
  | cons p rest ih =>
    intro h
    cases p with
    | electra b => exact ⟨"Unable to convert slashing of type electra to a Phase0 slashing", rfl⟩
    | base b =>
      rcases h with ⟨t, ht⟩
      rcases List.mem_cons.mp ht with h1 | h2
      · exact absurd h1 (by simp)
      · rcases ih ⟨t, h2⟩ with ⟨m, hm⟩
        exact ⟨m, by simp [slashListBase, hm]⟩

/-- Claim C8: a successful V2 list response carries only entries of the single
variant selected by the current head-state fork and its version field names
that fork (so variants are never mixed); an entry of the other variant in the
enumerated pool makes the whole response a 500 instead of a partial answer. -/
theorem C8_variant_exclusivity (s : Server) (slotQ ciQ : QueryParam) (st : HeadState)
    (hst : s.headStateReadOnly = Except.ok st) :
    (∀ out, ListAttestationsV2 s slotQ ciQ = Except.ok out →
      out.version = st.version ∧ ∀ x ∈ out.data, attVariantOk st.version x = true) ∧
    (∀ unagg sf cf, s.unaggregatedAttestations = Except.ok unagg →
      slotQ.parse = some sf → ciQ.parse = some cf →
      (∃ x ∈ s.aggregatedAttestations ++ unagg, attVariantOk st.version x = false) →
      ∃ m, ListAttestationsV2 s slotQ ciQ = Except.error (Resp.err 500 m)) ∧
    (∀ out, GetAttesterSlashingsV2 s = Except.ok out →
      out.version = st.version ∧ ∀ x ∈ out.data, slashingVariantOk st.version x = true) ∧
    ((∃ x ∈ s.pendingAttesterSlashings st, slashingVariantOk st.version x = false) →
      ∃ m, GetAttesterSlashingsV2 s = Except.error (Resp.err 500 m)) := by
  refine ⟨?_, ?_, ?_, ?_⟩
  · intro out hout
    unfold ListAttestationsV2 at hout
    cases hsp : slotQ.parse with
    | none => rw [hsp] at hout; exact Except.noConfusion hout
    | some sf =>
      rw [hsp] at hout
      dsimp only at hout
      cases hcp : ciQ.parse with
      | none => rw [hcp] at hout; exact Except.noConfusion hout
      | some cf =>
        rw [hcp] at hout
        dsimp only at hout
        rw [hst] at hout
        dsimp only at hout
        cases hu : s.unaggregatedAttestations with
        | error e => rw [hu] at hout; exact Except.noConfusion hout
        | ok unagg =>
          rw [hu] at hout
          dsimp only at hout
          cases hfork : vge st.version ForkVersion.electra with
          | true =>
            rw [hfork, if_pos rfl] at hout
            cases hfil : listFilterElectra sf cf (s.aggregatedAttestations ++ unagg) with
            | error m => rw [hfil] at hout; exact Except.noConfusion hout
            | ok l =>
              rw [hfil] at hout
              cases hout
              refine ⟨rfl, ?_⟩
              intro x hx
              rcases listFilterElectra_ok_mem sf cf _ l hfil x hx with ⟨a, ha⟩
              subst ha
              simp [attVariantOk, hfork]
          | false =>
            rw [hfork, if_neg (by decide)] at hout
            cases hfil : listFilterBase sf cf (s.aggregatedAttestations ++ unagg) with
            | error m => rw [hfil] at hout; exact Except.noConfusion hout
            | ok l =>
              rw [hfil] at hout
              cases hout
              refine ⟨rfl, ?_⟩
              intro x hx
              rcases listFilterBase_ok_mem sf cf _ l hfil x hx with ⟨a, ha⟩
              subst ha
              simp [attVariantOk, hfork]
  · intro unagg sf cf hu hsp hcp hbad
    unfold ListAttestationsV2
    rw [hsp]
    dsimp only
    rw [hcp]
    dsimp only
    rw [hst]
    dsimp only
    rw [hu]
    dsimp only
    rcases hbad with ⟨x, hxmem, hxvar⟩
    cases hfork : vge st.version ForkVersion.electra with
    | true =>
      rw [if_pos rfl]
      cases x with
      | electra a => simp [attVariantOk, hfork] at hxvar
      | base a =>
        rcases listFilterElectra_err_of_base sf cf _ ⟨a, hxmem⟩ with ⟨m, hm⟩
        exact ⟨m, by rw [hm]⟩
    | false =>
      rw [if_neg (by decide)]
      cases x with
      | base a => simp [attVariantOk, hfork] at hxvar
      | electra a =>
        rcases listFilterBase_err_of_electra sf cf _ ⟨a, hxmem⟩ with ⟨m, hm⟩
        exact ⟨m, by rw [hm]⟩
  · intro out hout
    unfold GetAttesterSlashingsV2 at hout
    rw [hst] at hout
    dsimp only at hout
    cases hfork : vge st.version ForkVersion.electra with
    | true =>
      rw [hfork, if_pos rfl] at hout
      cases hfil : slashListElectra (s.pendingAttesterSlashings st) with
      | error m => rw [hfil] at hout; exact Except.noConfusion hout
      | ok l =>
        rw [hfil] at hout
        cases hout
        refine ⟨rfl, ?_⟩
        intro x hx
        rcases slashListElectra_ok_mem _ l hfil x hx with ⟨t, ht⟩
        subst ht
        simp [slashingVariantOk, hfork]
    | false =>
      rw [hfork, if_neg (by decide)] at hout
      cases hfil : slashListBase (s.pendingAttesterSlashings st) with
      | error m => rw [hfil] at hout; exact Except.noConfusion hout
      | ok l =>
        rw [hfil] at hout
        cases hout
        refine ⟨rfl, ?_⟩
        intro x hx
        rcases slashListBase_ok_mem _ l hfil x hx with ⟨t, ht⟩
        subst ht
        simp [slashingVariantOk, hfork]
  · intro hbad
    unfold GetAttesterSlashingsV2
    rw [hst]
    dsimp only
    rcases hbad with ⟨x, hxmem, hxvar⟩
    cases hfork : vge st.version ForkVersion.electra with
    | true =>
      rw [if_pos rfl]
      cases x with
      | electra t => simp [slashingVariantOk, hfork] at hxvar
      | base t =>
        rcases slashListElectra_err_of_base _ ⟨t, hxmem⟩ with ⟨m, hm⟩
        exact ⟨m, by rw [hm]⟩
    | false =>
      rw [if_neg (by decide)]
      cases x with
      | base t => simp [slashingVariantOk, hfork] at hxvar
      | electra t =>
        rcases slashListBase_err_of_electra _ ⟨t, hxmem⟩ with ⟨m, hm⟩
        exact ⟨m, by rw [hm]⟩

/-- Claim C8 (witness): with the concrete Deneb head and a base-variant
slashing staged, the V2 list succeeds with the Deneb version and a
fork-matching entry. -/
theorem C8_witness :
    SlashingsV2Ok.version ⟨ForkVersion.deneb, [PoolSlashing.base 0]⟩ = ForkVersion.deneb ∧
    slashingVariantOk ForkVersion.deneb (PoolSlashing.base 0) = true := by
  have h := (C8_variant_exclusivity serverDeneb QueryParam.absent QueryParam.absent
    ⟨ForkVersion.deneb, 0⟩ rfl).2.2.1 ⟨ForkVersion.deneb, [PoolSlashing.base 0]⟩ rfl
  exact ⟨h.1, h.2 (PoolSlashing.base 0) (by simp)⟩

/-- The Phase B step records exactly its loop index when it fails. -/
theorem attStep_snd (s : Server) (i : Nat) (att : Attestation) :
    (attStep s i att).2 = if attBroadcastFails s att then [Nat.repr i] else [] := by
  unfold attStep attBroadcastFails
  cases h1 : s.headValidatorsIndices (ToEpoch att.data.slot) with
  | error e => rfl
  | ok vals =>
    dsimp only
    cases h2 : s.broadcastAttestation
        (s.computeSubnet vals.length att.data.committeeIndex att.data.slot) att with
    | error e => rfl
    | ok u => rfl

/-- Phase B's failedBroadcasts list is the rendered positions of the failing
items, counted inside the survivors list. -/
theorem attPhaseB_snd (s : Server) :
    ∀ (valid : List Attestation) (i : Nat), (attPhaseB s i valid).2 = failIdx s i valid := by
  intro valid
  induction valid with
  | nil => intro i; rfl
  | cons a rest ih =>
    intro i
    simp only [attPhaseB, failIdx, attStep_snd, ih (i + 1)]

/-- The Phase A survivors are the indexed survivors without their indices. -/
theorem attPhaseA_snd_eq_idx (s : Server) :
    ∀ (src : List WireAtt) (i : Nat),
      (attPhaseA s i src).2 = (attPhaseAIdx s i src).map Prod.snd := by
  intro src
  induction src with
  | nil => intro i; rfl
  | cons w rest ih =>
    intro i
    simp only [attPhaseA, attPhaseAIdx]
    cases h1 : s.attToConsensus w with
    | error e =>
      dsimp only
      exact ih (i + 1)
    | ok att =>
      dsimp only
      cases h2 : s.signatureFromBytes att.signature with
      | error e =>
        dsimp only
        exact ih (i + 1)
      | ok u =>
        dsimp only
        simp [ih (i + 1)]

/-- The original index of the k-th survivor is at least the start index plus k. -/
theorem attPhaseAIdx_get_ge (s : Server) :
    ∀ (src : List WireAtt) (i k : Nat) (p : Nat × Attestation),
      (attPhaseAIdx s i src).get? k = some p → i + k ≤ p.1 := by
  intro src
  induction src with
  | nil =>
    intro i k p hp
    simp [attPhaseAIdx] at hp
  | cons w rest ih =>
    intro i k p
    simp only [attPhaseAIdx]
    cases h1 : s.attToConsensus w with
    | error e =>
      dsimp only
      intro hp
      exact Nat.le_trans (by omega) (ih (i + 1) k p hp)
    | ok att =>
      dsimp only
      cases h2 : s.signatureFromBytes att.signature with
      | error e =>
        dsimp only
        intro hp
        exact Nat.le_trans (by omega) (ih (i + 1) k p hp)
      | ok u =>
        dsimp only
        cases k with
        | zero =>
          intro hp
          rw [List.get?_cons_zero] at hp
          injection hp with hp2
          subst hp2
          simp
        | succ k2 =>
          intro hp
          rw [List.get?_cons_succ] at hp
          have h := ih (i + 1) k2 p hp
          omega

/-- Every Phase A failure index is at least the start index. -/
theorem attPhaseA_fst_ge (s : Server) :
    ∀ (src : List WireAtt) (i j : Nat) (m : String),
      (j, m) ∈ (attPhaseA s i src).1 → i ≤ j := by
  intro src
  induction src with
  | nil =>
    intro i j m hm
    simp [attPhaseA] at hm
  | cons w rest ih =>
    intro i j m
    simp only [attPhaseA]
    cases h1 : s.attToConsensus w with
    | error e =>
      dsimp only
      intro hm
      rcases List.mem_cons.mp hm with h | h
      · have : j = i := congrArg Prod.fst h
        omega
      · exact Nat.le_trans (by omega) (ih (i + 1) j m h)
    | ok att =>
      dsimp only
      cases h2 : s.signatureFromBytes att.signature with
      | error e =>
        dsimp only
        intro hm
        rcases List.mem_cons.mp hm with h | h
        · have : j = i := congrArg Prod.fst h
          omega
        · exact Nat.le_trans (by omega) (ih (i + 1) j m h)
      | ok u =>
        dsimp only
        intro hm
        exact Nat.le_trans (by omega) (ih (i + 1) j m hm)

/-- When a Phase A failure precedes a survivor, the survivor's position in the
survivors list is strictly smaller than its original index. -/
theorem attPhaseAIdx_get_strict (s : Server) :
    ∀ (src : List WireAtt) (i k : Nat) (p : Nat × Attestation) (j : Nat) (m : String),
      (attPhaseAIdx s i src).get? k = some p →
      (j, m) ∈ (attPhaseA s i src).1 → j < p.1 → i + k < p.1 := by
  intro src
  induction src with
  | nil =>
    intro i k p j m hp
    simp [attPhaseAIdx] at hp
  | cons w rest ih =>
    intro i k p j m
    simp only [attPhaseAIdx, attPhaseA]
    cases h1 : s.attToConsensus w with
    | error e =>
      dsimp only
      intro hp hm hlt
      have h := attPhaseAIdx_get_ge s rest (i + 1) k p hp
      omega
    | ok att =>
      dsimp only
      cases h2 : s.signatureFromBytes att.signature with
      | error e =>
        dsimp only
        intro hp hm hlt
        have h := attPhaseAIdx_get_ge s rest (i + 1) k p hp
        omega
      | ok u =>
        dsimp only
        cases k with
        | zero =>
          intro hp hm hlt
          rw [List.get?_cons_zero] at hp
          injection hp with hp2
          subst hp2
          have hj := attPhaseA_fst_ge s rest (i + 1) j m hm
          dsimp only at hlt
          omega
        | succ k2 =>
          intro hp hm hlt
          rw [List.get?_cons_succ] at hp
          have h := ih (i + 1) k2 p j m hp hm hlt
          omega

/-- A non-fatal Electra Phase B step records exactly its loop index when it
fails its broadcast. -/
theorem attStepElectra_characterize (s : Server) (i : Nat) (att : AttestationElectra) :
    (attStepElectra s i att).2.2 = none →
    (attStepElectra s i att).2.1 =
      if attBroadcastFailsE s att then [Nat.repr i] else [] := by
  unfold attStepElectra attBroadcastFailsE
  cases h1 : s.headValidatorsIndices (ToEpoch att.data.slot) with
  | error e =>
    intro _
    rfl
  | ok vals =>
    dsimp only
    cases h2 : GetCommitteeIndex att.committeeBits with
    | error e =>
      dsimp only
      intro h
      exact absurd h (by simp)
    | ok ci =>
      dsimp only
      cases h3 : s.broadcastAttestationElectra
          (s.computeSubnet vals.length ci att.data.slot) att with
      | error e =>
        intro _
        rfl
      | ok u =>
        intro _
        rfl

/-- A non-fatal Electra Phase B run's failedBroadcasts list is the rendered
positions of the failing items, counted inside the survivors list. -/
theorem attPhaseBElectra_snd (s : Server) :
    ∀ (valid : List AttestationElectra) (i : Nat),
      (attPhaseBElectra s i valid).2.2 = none →
      (attPhaseBElectra s i valid).2.1 = failIdxE s i valid := by
  intro valid
  induction valid with
  | nil =>
    intro i _
    rfl
  | cons a rest ih =>
    intro i
    simp only [attPhaseBElectra, failIdxE]
    cases hf : (attStepElectra s i a).2.2 with
    | some e =>
      dsimp only
      intro hnf
      exact absurd hnf (by simp)
    | none =>
      dsimp only
      intro hnf
      rw [attStepElectra_characterize s i a hf, ih (i + 1) hnf]

/-- The Electra Phase A survivors are the indexed survivors without their
indices. -/
theorem attPhaseAElectra_snd_eq_idx (s : Server) :
    ∀ (src : List WireAttElectra) (i : Nat),
      (attPhaseAElectra s i src).2 = (attPhaseAIdxE s i src).map Prod.snd := by
  intro src
  induction src with
  | nil => intro i; rfl
  | cons w rest ih =>
    intro i
    simp only [attPhaseAElectra, attPhaseAIdxE]
    cases h1 : s.attElectraToConsensus w with
    | error e =>
      dsimp only
      exact ih (i + 1)
    | ok att =>
      dsimp only
      cases h2 : s.signatureFromBytes att.signature with
      | error e =>
        dsimp only
        exact ih (i + 1)
      | ok u =>
        dsimp only
        simp [ih (i + 1)]

/-- The original index of the k-th Electra survivor is at least the start index
plus k. -/
theorem attPhaseAIdxE_get_ge (s : Server) :
    ∀ (src : List WireAttElectra) (i k : Nat) (p : Nat × AttestationElectra),
      (attPhaseAIdxE s i src).get? k = some p → i + k ≤ p.1 := by
  intro src
  induction src with
  | nil =>
    intro i k p hp
    simp [attPhaseAIdxE] at hp
  | cons w rest ih =>
    intro i k p
    simp only [attPhaseAIdxE]
    cases h1 : s.attElectraToConsensus w with
    | error e =>
      dsimp only
      intro hp
      exact Nat.le_trans (by omega) (ih (i + 1) k p hp)
    | ok att =>
      dsimp only
      cases h2 : s.signatureFromBytes att.signature with
      | error e =>
        dsimp only
        intro hp
        exact Nat.le_trans (by omega) (ih (i + 1) k p hp)
      | ok u =>
        dsimp only
        cases k with
        | zero =>
          intro hp
          rw [List.get?_cons_zero] at hp
          injection hp with hp2
          subst hp2
          simp
        | succ k2 =>
          intro hp
          rw [List.get?_cons_succ] at hp
          have h := ih (i + 1) k2 p hp
          omega

/-- Every Electra Phase A failure index is at least the start index. -/
theorem attPhaseAElectra_fst_ge (s : Server) :
    ∀ (src : List WireAttElectra) (i j : Nat) (m : String),
      (j, m) ∈ (attPhaseAElectra s i src).1 → i ≤ j := by
  intro src
  induction src with
  | nil =>
    intro i j m hm
    simp [attPhaseAElectra] at hm
  | cons w rest ih =>
    intro i j m
    simp only [attPhaseAElectra]
    cases h1 : s.attElectraToConsensus w with
    | error e =>
      dsimp only
      intro hm
      rcases List.mem_cons.mp hm with h | h
      · have : j = i := congrArg Prod.fst h
        omega
      · exact Nat.le_trans (by omega) (ih (i + 1) j m h)
    | ok att =>
      dsimp only
      cases h2 : s.signatureFromBytes att.signature with
      | error e =>
        dsimp only
        intro hm
        rcases List.mem_cons.mp hm with h | h
        · have : j = i := congrArg Prod.fst h
          omega
        · exact Nat.le_trans (by omega) (ih (i + 1) j m h)
      | ok u =>
        dsimp only
        intro hm
        exact Nat.le_trans (by omega) (ih (i + 1) j m hm)

/-- When an Electra Phase A failure precedes a survivor, the survivor's
position in the survivors list is strictly smaller than its original index. -/
theorem attPhaseAIdxE_get_strict (s : Server) :
    ∀ (src : List WireAttElectra) (i k : Nat) (p : Nat × AttestationElectra)
      (j : Nat) (m : String),
      (attPhaseAIdxE s i src).get? k = some p →
      (j, m) ∈ (attPhaseAElectra s i src).1 → j < p.1 → i + k < p.1 := by
  intro src
  induction src with
  | nil =>
    intro i k p j m hp
    simp [attPhaseAIdxE] at hp
  | cons w rest ih =>
    intro i k p j m
    simp only [attPhaseAIdxE, attPhaseAElectra]
    cases h1 : s.attElectraToConsensus w with
    | error e =>
      dsimp only
      intro hp hm hlt
      have h := attPhaseAIdxE_get_ge s rest (i + 1) k p hp
      omega
    | ok att =>
      dsimp only
      cases h2 : s.signatureFromBytes att.signature with
      | error e =>
        dsimp only
        intro hp hm hlt
        have h := attPhaseAIdxE_get_ge s rest (i + 1) k p hp
        omega
      | ok u =>
        dsimp only
        cases k with
        | zero =>
          intro hp hm hlt
          rw [List.get?_cons_zero] at hp
          injection hp with hp2
          subst hp2
          have hj := attPhaseAElectra_fst_ge s rest (i + 1) j m hm
          dsimp only at hlt
          omega
        | succ k2 =>
          intro hp hm hlt
          rw [List.get?_cons_succ] at hp
          have h := ih (i + 1) k2 p j m hp hm hlt
          omega

/-- Claim C10: in both attestation handlers, the indices reported in the
"could not be broadcasted" message are positions in the list of Phase A
survivors (the non-fatal failedBroadcasts equals the rendered failing
positions over the survivors list); a survivor's position is at most its
original index, and is strictly smaller whenever some Phase A failure has a
smaller original index — so the two numbers differ whenever a Phase A failure
precedes a broadcast failure. -/
theorem C10_broadcast_index_is_position_among_survivors
    (s : Server) (src : List WireAtt) (srcE : List WireAttElectra)
    (k : Nat) (p : Nat × Attestation) (kE : Nat) (pE : Nat × AttestationElectra)
    (hk : (attPhaseAIdx s 0 src).get? k = some p)
    (hkE : (attPhaseAIdxE s 0 srcE).get? kE = some pE) :
    (handleAttestations s (some src)).failedBroadcasts =
      failIdx s 0 ((attPhaseAIdx s 0 src).map Prod.snd) ∧
    k ≤ p.1 ∧
    (∀ j m, (j, m) ∈ (attPhaseA s 0 src).1 → j < p.1 → k < p.1) ∧
    ((handleAttestationsElectra s (some srcE)).fatal = none →
      (handleAttestationsElectra s (some srcE)).failedBroadcasts =
        failIdxE s 0 ((attPhaseAIdxE s 0 srcE).map Prod.snd)) ∧
    kE ≤ pE.1 ∧
    (∀ j m, (j, m) ∈ (attPhaseAElectra s 0 srcE).1 → j < pE.1 → kE < pE.1) := by
  have hne : src ≠ [] := by
    intro h
    subst h
    simp [attPhaseAIdx] at hk
  have hneE : srcE ≠ [] := by
    intro h
    subst h
    simp [attPhaseAIdxE] at hkE
  refine ⟨?_, ?_, ?_, ?_, ?_, ?_⟩
  · cases src with
    | nil => exact absurd rfl hne
    | cons a l =>
      unfold handleAttestations
      simp only [List.isEmpty_cons, Bool.false_eq_true, if_false]
      rw [attPhaseB_snd s (attPhaseA s 0 (a :: l)).2 0, attPhaseA_snd_eq_idx s (a :: l) 0]
  · simpa using attPhaseAIdx_get_ge s src 0 k p hk
  · intro j m hm hlt
    simpa using attPhaseAIdx_get_strict s src 0 k p j m hk hm hlt
  · intro hfat
    cases srcE with
    | nil => exact absurd rfl hneE
    | cons a l =>
      unfold handleAttestationsElectra at hfat ⊢
      simp only [List.isEmpty_cons, Bool.false_eq_true, if_false] at hfat ⊢
      cases hpb : (attPhaseBElectra s 0 (attPhaseAElectra s 0 (a :: l)).2).2.2 with
      | some e =>
        rw [hpb] at hfat
        exact Option.noConfusion hfat
      | none =>
        dsimp only
        rw [attPhaseBElectra_snd s (attPhaseAElectra s 0 (a :: l)).2 0 hpb,
          attPhaseAElectra_snd_eq_idx s (a :: l) 0]
  · simpa using attPhaseAIdxE_get_ge s srcE 0 kE pE hkE
  · intro j m hm hlt
    simpa using attPhaseAIdxE_get_strict s srcE 0 kE pE j m hkE hm hlt

/-- Claim C10 (witness): with item 0 failing Phase A and item 1 surviving in
both variants, the surviving item's reported position is 0 while its original
index is 1 on the Electra path; the base and Electra failedBroadcasts both
equal the rendered failing positions over the survivors. -/
theorem C10_witness :
    (handleAttestations serverMixedFailE (some [w0, w1])).failedBroadcasts =
      failIdx serverMixedFailE 0
        ((attPhaseAIdx serverMixedFailE 0 [w0, w1]).map Prod.snd) ∧
    (handleAttestationsElectra serverMixedFailE (some [we0, we1])).failedBroadcasts =
      failIdxE serverMixedFailE 0
        ((attPhaseAIdxE serverMixedFailE 0 [we0, we1]).map Prod.snd) ∧
    (0 : Nat) ≤ ((1 : Nat), attE0).1 ∧
    (0 : Nat) < ((1 : Nat), attE0).1 := by
  have h := C10_broadcast_index_is_position_among_survivors serverMixedFailE
    [w0, w1] [we0, we1] 0 (1, att0) 0 (1, attE0) (by decide) (by decide)
  exact ⟨h.1, h.2.2.2.1 rfl, h.2.2.2.2.1,
    h.2.2.2.2.2 0 ("Could not convert request attestation to consensus attestation: bad att")
      (by decide) (by decide)⟩

end BeaconPool
